import Mathlib

/-!
# PCI-E bus layer (drivers/pcie/pcie_root.c)

Shallow embedding of the enumeration engine and of the device accessors of
`pcie_root.c`.  The transport (the bus operations table) is external to the
file: it is a parameter of every definition, a record of state-passing
functions over an arbitrary world state `σ`.  Every embedded function returns
its C return value, the list of transport and probe calls it issued (in
order) and the world state it leaves.
-/

namespace Pcie

/-! ## Constants of `nuttx/pcie/pcie.h` and `errno.h` -/

/-- Success status. -/
def OK : Int := 0

/-- Invalid-argument error number of `errno.h`. -/
def EINVAL : Int := 22

/-- Modelled from the spec: the wildcard and "no device" sentinel of the missing header
`nuttx/pcie/pcie.h`, all ones on 16 bits. -/
def PCI_ID_ANY : Nat := 0xffff

/-- Modelled from the spec: vendor ID offset 0x00 (header missing). -/
def PCI_CFG_VENDOR_ID : Nat := 0x00

/-- Modelled from the spec: device ID offset 0x02 (header missing). -/
def PCI_CFG_DEVICE_ID : Nat := 0x02

/-- Modelled from the spec: command register offset 0x04 (header missing). -/
def PCI_CFG_COMMAND : Nat := 0x04

/-- Modelled from the spec: status register offset 0x06 (header missing). -/
def PCI_CFG_STATUS : Nat := 0x06

/-- Modelled from the spec: revision/class offset 0x08 (header missing). -/
def PCI_CFG_REVERSION : Nat := 0x08

/-- Modelled from the spec: BAR array base 0x10, six 4-byte slots (header missing). -/
def PCI_CFG_BAR : Nat := 0x10

/-- Modelled from the spec: capabilities pointer offset 0x34 (header missing). -/
def PCI_CFG_CAP_PTR : Nat := 0x34

/-- Modelled from the spec: the "capabilities list present" bit of the status register
(header missing); bit 4 in the PCI register layout. -/
def PCI_STS_CAPS : Nat := 0x10

/-- Modelled from the spec: the "memory space enable" bit of the command register
(header missing); bit 1 in the PCI register layout. -/
def PCI_CMD_MEM : Nat := 0x2

/-- Modelled from the spec: the "bus master" bit of the command register
(header missing); bit 2 in the PCI register layout. -/
def PCI_CMD_MASTER : Nat := 0x4

/-- Modelled from the spec: bit 0 of a BAR distinguishes I/O space (1) from memory
space (0) (header missing). -/
def PCI_BAR_IO : Nat := 0x1

/-- Modelled from the spec: bits 1-2 of a memory BAR equal to 10 mean 64-bit
addressing, so the type bit is bit 2 (header missing). -/
def PCI_BAR_64BIT : Nat := 0x4

/-! ## Machine integers -/

/-- Value held by a `uint8_t`. -/
def u8 (n : Nat) : Nat := n % 2 ^ 8

/-- Value held by a `uint16_t`. -/
def u16 (n : Nat) : Nat := n % 2 ^ 16

/-- Value held by a `uint32_t`. -/
def u32 (n : Nat) : Nat := n % 2 ^ 32

/-- Value held by a `uint64_t`. -/
def u64 (n : Nat) : Nat := n % 2 ^ 64

/-! ## Data model -/

/-- A call issued by the bus layer, with its arguments: a transport operation on
the device `bdf`, or the probe of the registry entry `index`. -/
inductive Event where
  | cfg_read (bdf addr size : Nat)
  | cfg_write (bdf addr value size : Nat)
  | map_bar (bdf addr length : Nat)
  | map_bar64 (bdf addr length : Nat)
  | probe (index bdf : Nat)
  deriving DecidableEq, Repr

/-- The bus operations table `struct pcie_bus_ops_s`, over a world state `σ`.
The device argument of each operation is represented by its BDF.
`pci_cfg_read bdf addr size s` yields the status, the contents of the buffer after
the call and the new state; `pci_cfg_write bdf addr value size s` the status and the
new state.  The two mapping operations may be absent (null).  The MSI operations
are not used by `pcie_root.c`. -/
structure pcie_bus_ops_s (σ : Type) where
  pci_cfg_write : Nat → Nat → Nat → Nat → σ → Int × σ
  pci_cfg_read : Nat → Nat → Nat → σ → Int × Nat × σ
  pci_map_bar : Option (Nat → Nat → Nat → σ → Int × σ)
  pci_map_bar64 : Option (Nat → Nat → Nat → σ → Int × σ)

/-- The bus `struct pcie_bus_s`: a reference to its operations table. -/
structure pcie_bus_s (σ : Type) where
  ops : pcie_bus_ops_s σ

/-- A device type descriptor `struct pcie_dev_type_s`.  The probe callback
receives the bus and the BDF (its descriptor argument is the descriptor it
belongs to, recorded in the call event by the registry index); it may be null. -/
structure pcie_dev_type_s (σ : Type) where
  name : String
  vendor : Nat
  device : Nat
  class_rev : Nat
  probe : Option (pcie_bus_s σ → Nat → σ → Int × σ)

/-- A device handle `struct pcie_dev_s`: owning bus and BDF.  The `type` field is
read by no function of `pcie_root.c` and is left out. -/
structure pcie_dev_s (σ : Type) where
  bus : pcie_bus_s σ
  bdf : Nat

/-- Outcome of a call: return value, calls issued in order, final world state. -/
structure Res (σ : Type) where
  ret : Int
  log : List Event
  st : σ

/-- Outcome of a call with an output location: `out` is `none` when the location
was left unwritten, `some v` when `v` was stored in it. -/
structure ResOut (σ : Type) where
  ret : Int
  out : Option Nat
  log : List Event
  st : σ

/-! ## pci_enumerate -/

/-- The inner loop of `pci_enumerate` (lines 105-133) from registry index `i` on,
over the entries before the terminating NULL: the first descriptor whose three
filters accept `(vid, id, rev)` ends the loop, after its probe is called when it
has one. -/
def pci_enumerate_types {σ : Type} (bus : pcie_bus_s σ) (bdf vid id rev : Nat) :
    List (pcie_dev_type_s σ) → Nat → σ → List Event × σ
  | [], _, s => ([], s)
  | t :: ts, i, s =>
    if t.vendor = PCI_ID_ANY ∨ t.vendor = vid then
      if t.device = PCI_ID_ANY ∨ t.device = id then
        if t.class_rev = PCI_ID_ANY ∨ t.class_rev = rev then
          match t.probe with
          | some p => ([Event.probe i bdf], (p bus bdf s).2)
          | none => ([], s)
        else pci_enumerate_types bus bdf vid id rev ts (i + 1) s
      else pci_enumerate_types bus bdf vid id rev ts (i + 1) s
    else pci_enumerate_types bus bdf vid id rev ts (i + 1) s

/-- One iteration of the outer loop of `pci_enumerate` (lines 90-133) for `bdf`. -/
def pci_enumerate_body {σ : Type} (bus : pcie_bus_s σ) (types : List (pcie_dev_type_s σ))
    (bdf : Nat) (s : σ) : List Event × σ :=
  let r1 := bus.ops.pci_cfg_read bdf PCI_CFG_VENDOR_ID 2 s
  let vid := u16 r1.2.1
  let r2 := bus.ops.pci_cfg_read bdf PCI_CFG_DEVICE_ID 2 r1.2.2
  let id := u16 r2.2.1
  let r3 := bus.ops.pci_cfg_read bdf PCI_CFG_REVERSION 2 r2.2.2
  let rev := u16 r3.2.1
  let reads := [Event.cfg_read bdf PCI_CFG_VENDOR_ID 2, Event.cfg_read bdf PCI_CFG_DEVICE_ID 2,
    Event.cfg_read bdf PCI_CFG_REVERSION 2]
  if vid = PCI_ID_ANY then (reads, r3.2.2)
  else
    let r := pci_enumerate_types bus bdf vid id rev types 0 r3.2.2
    (reads ++ r.1, r.2)

/-- The outer loop of `pci_enumerate` over the BDFs of a list, in order. -/
def pci_enumerate_scan {σ : Type} (bus : pcie_bus_s σ) (types : List (pcie_dev_type_s σ)) :
    List Nat → σ → List Event × σ
  | [], s => ([], s)
  | bdf :: rest, s =>
    let r := pci_enumerate_body bus types bdf s
    let r' := pci_enumerate_scan bus types rest r.2
    (r.1 ++ r'.1, r'.2)

/-- The function `pci_enumerate` (lines 66-137).  `CONFIG_PCIE_MAX_BDF` is a
configuration constant, taken as a parameter; `bus` and `types` are `none` when
the pointer is null, and `types` lists the registry entries before the
terminating NULL.  The loop runs `bdf` over `0 .. CONFIG_PCIE_MAX_BDF - 1`. -/
def pci_enumerate {σ : Type} (CONFIG_PCIE_MAX_BDF : Nat) (bus : Option (pcie_bus_s σ))
    (types : Option (List (pcie_dev_type_s σ))) (s : σ) : Res σ :=
  match bus with
  | none => ⟨-EINVAL, [], s⟩
  | some bus =>
    match types with
    | none => ⟨-EINVAL, [], s⟩
    | some types =>
      let r := pci_enumerate_scan bus types (List.range CONFIG_PCIE_MAX_BDF) s
      ⟨OK, r.1, r.2⟩

/-! ## pci_enable_device -/

/-- The function `pci_enable_device` (lines 177-193): read the 16-bit command
register, or in the two enable bits, write the result back; the statuses of the
two transport calls are not looked at. -/
def pci_enable_device {σ : Type} (dev : pcie_dev_s σ) (s : σ) : Res σ :=
  let r := dev.bus.ops.pci_cfg_read dev.bdf PCI_CFG_COMMAND 2 s
  let old_cmd := u16 r.2.1
  let cmd := u16 (old_cmd ||| (PCI_CMD_MASTER ||| PCI_CMD_MEM))
  let w := dev.bus.ops.pci_cfg_write dev.bdf PCI_CFG_COMMAND cmd 2 r.2.2
  ⟨OK, [Event.cfg_read dev.bdf PCI_CFG_COMMAND 2, Event.cfg_write dev.bdf PCI_CFG_COMMAND cmd 2],
    w.2⟩

/-! ## pci_find_cap -/

/-- The loop `while (1)` of `pci_find_cap` (lines 222-232), entered with the
current `pos`.  The C loop has no bound of its own; `fuel` counts the iterations
the model may run, and `none` means they ran out before the loop returned. -/
def pci_find_cap_walk {σ : Type} (dev : pcie_dev_s σ) (cap : Nat) :
    Nat → Nat → σ → Option (Res σ)
  | 0, _, _ => none
  | fuel + 1, pos, s =>
    let r := dev.bus.ops.pci_cfg_read dev.bdf (pos + 1) 1 s
    let pos1 := u8 r.2.1
    if pos1 = 0 then
      some ⟨-EINVAL, [Event.cfg_read dev.bdf (pos + 1) 1], r.2.2⟩
    else
      let r2 := dev.bus.ops.pci_cfg_read dev.bdf pos1 1 r.2.2
      let rcap := u8 r2.2.1
      if rcap = cap then
        some ⟨(pos1 : Int), [Event.cfg_read dev.bdf (pos + 1) 1, Event.cfg_read dev.bdf pos1 1],
          r2.2.2⟩
      else
        (pci_find_cap_walk dev cap fuel pos1 r2.2.2).map fun x =>
          ⟨x.ret, Event.cfg_read dev.bdf (pos + 1) 1 :: Event.cfg_read dev.bdf pos1 1 :: x.log,
            x.st⟩

/-- The function `pci_find_cap` (lines 211-233), with `fuel` bounding the
iterations of its loop. -/
def pci_find_cap {σ : Type} (fuel : Nat) (dev : pcie_dev_s σ) (cap : Nat) (s : σ) :
    Option (Res σ) :=
  let r := dev.bus.ops.pci_cfg_read dev.bdf PCI_CFG_STATUS 2 s
  let status := u16 r.2.1
  if status &&& PCI_STS_CAPS = 0 then
    some ⟨-EINVAL, [Event.cfg_read dev.bdf PCI_CFG_STATUS 2], r.2.2⟩
  else
    (pci_find_cap_walk dev cap fuel (PCI_CFG_CAP_PTR - 1) r.2.2).map fun x =>
      ⟨x.ret, Event.cfg_read dev.bdf PCI_CFG_STATUS 2 :: x.log, x.st⟩

/-! ## BAR accessors -/

/-- The function `pci_get_bar` (lines 251-260). -/
def pci_get_bar {σ : Type} (dev : pcie_dev_s σ) (bar : Nat) (s : σ) : ResOut σ :=
  if bar > 5 then ⟨-EINVAL, none, [], s⟩
  else
    let r := dev.bus.ops.pci_cfg_read dev.bdf (PCI_CFG_BAR + bar * 4) 4 s
    ⟨OK, some (u32 r.2.1), [Event.cfg_read dev.bdf (PCI_CFG_BAR + bar * 4) 4], r.2.2⟩

/-- The function `pci_get_bar64` (lines 278-293). -/
def pci_get_bar64 {σ : Type} (dev : pcie_dev_s σ) (bar : Nat) (s : σ) : ResOut σ :=
  if bar > 4 ∨ bar % 2 ≠ 0 then ⟨-EINVAL, none, [], s⟩
  else
    let r1 := dev.bus.ops.pci_cfg_read dev.bdf (PCI_CFG_BAR + bar * 4) 4 s
    let barmem1 := u32 r1.2.1
    let r2 := dev.bus.ops.pci_cfg_read dev.bdf (PCI_CFG_BAR + bar * 4 + 4) 4 r1.2.2
    let barmem2 := u32 r2.2.1
    ⟨OK, some (u64 (barmem2 <<< 32) ||| barmem1),
      [Event.cfg_read dev.bdf (PCI_CFG_BAR + bar * 4) 4,
        Event.cfg_read dev.bdf (PCI_CFG_BAR + bar * 4 + 4) 4], r2.2.2⟩

/-- The function `pci_set_bar` (lines 311-320). -/
def pci_set_bar {σ : Type} (dev : pcie_dev_s σ) (bar : Nat) (val : Nat) (s : σ) : Res σ :=
  if bar > 5 then ⟨-EINVAL, [], s⟩
  else
    let w := dev.bus.ops.pci_cfg_write dev.bdf (PCI_CFG_BAR + bar * 4) (u32 val) 4 s
    ⟨OK, [Event.cfg_write dev.bdf (PCI_CFG_BAR + bar * 4) (u32 val) 4], w.2⟩

/-- The function `pci_set_bar64` (lines 338-351). -/
def pci_set_bar64 {σ : Type} (dev : pcie_dev_s σ) (bar : Nat) (val : Nat) (s : σ) : Res σ :=
  if bar > 4 ∨ bar % 2 ≠ 0 then ⟨-EINVAL, [], s⟩
  else
    let barmem1 := u32 (u64 val)
    let barmem2 := u32 (u64 val >>> 32)
    let w1 := dev.bus.ops.pci_cfg_write dev.bdf (PCI_CFG_BAR + bar * 4) barmem1 4 s
    let w2 := dev.bus.ops.pci_cfg_write dev.bdf (PCI_CFG_BAR + bar * 4 + 4) barmem2 4 w1.2
    ⟨OK, [Event.cfg_write dev.bdf (PCI_CFG_BAR + bar * 4) barmem1 4,
      Event.cfg_write dev.bdf (PCI_CFG_BAR + bar * 4 + 4) barmem2 4], w2.2⟩

/-- The function `pci_map_bar` (lines 370-394).  `ret` tells whether the caller
passed a non-null output location. -/
def pci_map_bar {σ : Type} (dev : pcie_dev_s σ) (bar : Nat) (length : Nat) (ret : Bool)
    (s : σ) : ResOut σ :=
  if bar > 5 then ⟨-EINVAL, none, [], s⟩
  else
    let r := dev.bus.ops.pci_cfg_read dev.bdf (PCI_CFG_BAR + bar * 4) 4 s
    let barmem := u32 r.2.1
    if (bar % 2 = 0 ∧ barmem &&& PCI_BAR_64BIT = PCI_BAR_64BIT) ∨
        barmem &&& PCI_BAR_IO = PCI_BAR_IO then
      ⟨-EINVAL, none, [Event.cfg_read dev.bdf (PCI_CFG_BAR + bar * 4) 4], r.2.2⟩
    else
      match dev.bus.ops.pci_map_bar with
      | none => ⟨-EINVAL, none, [Event.cfg_read dev.bdf (PCI_CFG_BAR + bar * 4) 4], r.2.2⟩
      | some map =>
        let m := map dev.bdf barmem length r.2.2
        ⟨OK, if ret then some barmem else none,
          [Event.cfg_read dev.bdf (PCI_CFG_BAR + bar * 4) 4, Event.map_bar dev.bdf barmem length],
          m.2⟩

/-- The function `pci_map_bar64` (lines 413-442).  `ret` tells whether the caller
passed a non-null output location. -/
def pci_map_bar64 {σ : Type} (dev : pcie_dev_s σ) (bar : Nat) (length : Nat) (ret : Bool)
    (s : σ) : ResOut σ :=
  if bar > 4 ∨ bar % 2 ≠ 0 then ⟨-EINVAL, none, [], s⟩
  else
    let r1 := dev.bus.ops.pci_cfg_read dev.bdf (PCI_CFG_BAR + bar * 4) 4 s
    let barmem1 := u32 r1.2.1
    if barmem1 &&& PCI_BAR_64BIT ≠ PCI_BAR_64BIT ∨ barmem1 &&& PCI_BAR_IO = PCI_BAR_IO then
      ⟨-EINVAL, none, [Event.cfg_read dev.bdf (PCI_CFG_BAR + bar * 4) 4], r1.2.2⟩
    else
      let r2 := dev.bus.ops.pci_cfg_read dev.bdf (PCI_CFG_BAR + bar * 4 + 4) 4 r1.2.2
      let barmem2 := u32 r2.2.1
      let barmem := u64 (barmem2 <<< 32) ||| barmem1
      match dev.bus.ops.pci_map_bar64 with
      | none =>
        ⟨-EINVAL, none, [Event.cfg_read dev.bdf (PCI_CFG_BAR + bar * 4) 4,
          Event.cfg_read dev.bdf (PCI_CFG_BAR + bar * 4 + 4) 4], r2.2.2⟩
      | some map =>
        let m := map dev.bdf barmem length r2.2.2
        ⟨OK, if ret then some barmem else none,
          [Event.cfg_read dev.bdf (PCI_CFG_BAR + bar * 4) 4,
            Event.cfg_read dev.bdf (PCI_CFG_BAR + bar * 4 + 4) 4,
            Event.map_bar64 dev.bdf barmem length], m.2⟩

/-! ## Vocabulary of the statements -/

/-- The BDF an event is addressed to. -/
def Event.target : Event → Nat
  | .cfg_read b _ _ => b
  | .cfg_write b _ _ _ => b
  | .map_bar b _ _ => b
  | .map_bar64 b _ _ => b
  | .probe _ b => b

/-- The event is a probe invocation. -/
def Event.is_probe : Event → Bool
  | .probe _ _ => true
  | _ => false

/-- The event is a probe invocation for the BDF `b`. -/
def Event.is_probe_for (b : Nat) : Event → Bool
  | .probe _ b' => decide (b' = b)
  | _ => false

/-- The event is a call of one of the two mapping operations of the transport. -/
def Event.is_map : Event → Bool
  | .map_bar _ _ _ => true
  | .map_bar64 _ _ _ => true
  | _ => false

/-- The matching rule of the registry: each of the three filters of the
descriptor is the wildcard or equals the field read from the device. -/
def type_matches {σ : Type} (vid id rev : Nat) (t : pcie_dev_type_s σ) : Bool :=
  (t.vendor == PCI_ID_ANY || t.vendor == vid) &&
  (t.device == PCI_ID_ANY || t.device == id) &&
  (t.class_rev == PCI_ID_ANY || t.class_rev == rev)

/-- The three identity reads of one enumeration step for `bdf` from the state
`s`: the 16-bit vendor ID, device ID and revision/class values, and the state
after the third read. -/
def read_identity {σ : Type} (bus : pcie_bus_s σ) (bdf : Nat) (s : σ) : Nat × Nat × Nat × σ :=
  let r1 := bus.ops.pci_cfg_read bdf PCI_CFG_VENDOR_ID 2 s
  let r2 := bus.ops.pci_cfg_read bdf PCI_CFG_DEVICE_ID 2 r1.2.2
  let r3 := bus.ops.pci_cfg_read bdf PCI_CFG_REVERSION 2 r2.2.2
  (u16 r1.2.1, u16 r2.2.1, u16 r3.2.1, r3.2.2)

/-- The dispatch part of one enumeration step (lines 98-133): nothing for an
empty slot, the registry walk otherwise, on the identity just read. -/
def pci_enumerate_dispatch {σ : Type} (bus : pcie_bus_s σ) (types : List (pcie_dev_type_s σ))
    (bdf : Nat) (s : σ) : List Event × σ :=
  let I := read_identity bus bdf s
  if I.1 = PCI_ID_ANY then ([], I.2.2.2)
  else pci_enumerate_types bus bdf I.1 I.2.1 I.2.2.1 types 0 I.2.2.2

/-- The dispatch rule for the registry entry `i`: the slot is not empty, the
entry matches and has a probe, and no entry of lower index matches. -/
def dispatch_rule {σ : Type} (types : List (pcie_dev_type_s σ)) (vid id rev i : Nat) : Prop :=
  vid ≠ PCI_ID_ANY ∧
  ∃ t, types[i]? = some t ∧ type_matches vid id rev t = true ∧ t.probe.isSome = true ∧
    ∀ j, j < i → ∀ u, types[j]? = some u → type_matches vid id rev u = false

/-! ## Simulated transports used as concrete inputs -/

/-- A simulated bus without state on which exactly one device is present, at
BDF `k`, reporting vendor `V` and device `D`; every other BDF reads all ones. -/
def one_device_ops (k V D : Nat) : pcie_bus_ops_s Unit where
  pci_cfg_write := fun _ _ _ _ _ => (0, ())
  pci_cfg_read := fun bdf addr _ _ =>
    (0, if bdf = k then (if addr = 0 then V else if addr = 2 then D else 0) else 0xffff, ())
  pci_map_bar := none
  pci_map_bar64 := none

/-- A probe callback of a driver that claims the device and reports success. -/
def accepting_probe : pcie_bus_s Unit → Nat → Unit → Int × Unit :=
  fun _ _ _ => (0, ())

/-- A simulated transport without state: every read fills the buffer with `v`,
both mapping operations are present, and every operation returns `status`. -/
def const_ops (status : Int) (v : Nat) : pcie_bus_ops_s Unit where
  pci_cfg_write := fun _ _ _ _ _ => (status, ())
  pci_cfg_read := fun _ _ _ _ => (status, v, ())
  pci_map_bar := some (fun _ _ _ _ => (status, ()))
  pci_map_bar64 := some (fun _ _ _ _ => (status, ()))

/-- Little-endian value of the `size` bytes of a configuration space from `addr`. -/
def cfg_load (cfg : Nat → Nat) (addr : Nat) : Nat → Nat
  | 0 => 0
  | size + 1 => cfg addr % 256 + 256 * cfg_load cfg (addr + 1) size

/-- A simulated read-only transport: every device shows the configuration space
`cfg` (the byte at each offset); writes are dropped, mapping is not supported. -/
def cfg_ops (cfg : Nat → Nat) : pcie_bus_ops_s Unit where
  pci_cfg_write := fun _ _ _ _ _ => (0, ())
  pci_cfg_read := fun _ addr size _ => (0, cfg_load cfg addr size, ())
  pci_map_bar := none
  pci_map_bar64 := none

/-- The configuration space of the capability list
`[cap 0x05 @0x40 -> next 0x60] -> [cap 0x11 @0x60 -> next 0x00]`, with the
capabilities bit set in the status register. -/
def two_caps_cfg : Nat → Nat := fun a =>
  if a = 0x06 then 0x10 else if a = 0x34 then 0x40 else if a = 0x40 then 0x05
  else if a = 0x41 then 0x60 else if a = 0x60 then 0x11 else 0

/-- The configuration space of a cyclic capability list: the node at 0x40 has
ID 0x05 and its next pointer is 0x40 again; the capabilities bit is set. -/
def cyclic_caps_cfg : Nat → Nat := fun a =>
  if a = 0x06 then 0x10 else if a = 0x34 then 0x40 else if a = 0x40 then 0x05
  else if a = 0x41 then 0x40 else 0

/-- The offsets the capability walk of `dev` visits when every read leaves the
state `s`: entry `j` is the byte read at the next-pointer location of the one
before, the first one being read at `pos + 1`. -/
def cap_chain {σ : Type} (dev : pcie_dev_s σ) (s : σ) (pos : Nat) : Nat → Nat
  | 0 => u8 (dev.bus.ops.pci_cfg_read dev.bdf (pos + 1) 1 s).2.1
  | j + 1 => u8 (dev.bus.ops.pci_cfg_read dev.bdf (cap_chain dev s pos j + 1) 1 s).2.1

/-- The nodes of the capability list of `dev` in list order, followed from the
capabilities pointer. -/
def cap_node {σ : Type} (dev : pcie_dev_s σ) (s : σ) (j : Nat) : Nat :=
  cap_chain dev s (PCI_CFG_CAP_PTR - 1) j

/-- The 1-byte capability ID read at offset `pos`. -/
def cap_id {σ : Type} (dev : pcie_dev_s σ) (s : σ) (pos : Nat) : Nat :=
  u8 (dev.bus.ops.pci_cfg_read dev.bdf pos 1 s).2.1

/-- A registry of three descriptors used as a concrete input: the second one
matches every Intel device and has no probe, the third one is more specific and
has one. -/
def sample_registry : List (pcie_dev_type_s Unit) :=
  [⟨"other", 0x1234, PCI_ID_ANY, PCI_ID_ANY, some accepting_probe⟩,
    ⟨"intel-unclaimed", 0x8086, PCI_ID_ANY, PCI_ID_ANY, none⟩,
    ⟨"e1000", 0x8086, 0x100e, PCI_ID_ANY, some accepting_probe⟩]

/-- The configuration space of a device whose BAR 0 slot (0x10) holds
0x00000004 and whose BAR 1 slot (0x14) holds 0x00000001. -/
def bar64_cfg : Nat → Nat := fun a =>
  if a = 0x10 then 0x04 else if a = 0x14 then 0x01 else 0

/-! ## Configuration space as memory -/

/-- The configuration space `m` after the `size` low bytes of `value` are stored
little-endian from `addr`. -/
def cfg_store (m : Nat → Nat) (addr value size : Nat) : Nat → Nat :=
  fun a => if addr ≤ a ∧ a < addr + size then value / 256 ^ (a - addr) % 256 else m a

/-- A simulated transport whose state is the configuration memory of every
device (the byte at each BDF and offset): reads load, writes store, mapping is
not supported. -/
def mem_ops : pcie_bus_ops_s (Nat → Nat → Nat) where
  pci_cfg_write := fun bdf addr value size m =>
    (0, fun b => if b = bdf then cfg_store (m bdf) addr value size else m b)
  pci_cfg_read := fun bdf addr size m => (0, cfg_load (m bdf) addr size, m)
  pci_map_bar := none
  pci_map_bar64 := none

/-- The transport `ops` behaves as memory: `view s` gives the configuration
bytes of every device in the state `s`; a read returns the bytes stored and
leaves them alone, a write stores its bytes in the addressed device only. -/
def behaves_as_memory {σ : Type} (ops : pcie_bus_ops_s σ) (view : σ → Nat → Nat → Nat) : Prop :=
  (∀ bdf addr size s,
    (ops.pci_cfg_read bdf addr size s).2.1 = cfg_load (view s bdf) addr size ∧
    view (ops.pci_cfg_read bdf addr size s).2.2 = view s) ∧
  (∀ bdf addr value size s,
    view (ops.pci_cfg_write bdf addr value size s).2 =
      fun b => if b = bdf then cfg_store (view s bdf) addr value size else view s b)

/-! ## BDF fields and probe statuses -/

/-- The three fields of a BDF as `pcie_root.c` decomposes it for its log lines
(lines 102, 119, 127 and 189): `bdf >> 8`, `(bdf >> 3) & 0x1f`, `bdf & 0x3`. -/
def bdf_fields (bdf : Nat) : Nat × Nat × Nat :=
  (bdf >>> 8, (bdf >>> 3) &&& 0x1f, bdf &&& 0x3)

/-- Modelled from the spec: the decomposition `(b>>8, (b>>3)&0x1f, b&0x7)` of the
round-trip property; no function of `pcie_root.c` computes it. -/
def bdf_fields_spec (bdf : Nat) : Nat × Nat × Nat :=
  (bdf >>> 8, (bdf >>> 3) &&& 0x1f, bdf &&& 0x7)

/-- Modelled from the spec: the canonical packing
`bdf = (bus << 8) | (device << 3) | function`; no function of `pcie_root.c`
computes it. -/
def bdf_pack (f : Nat × Nat × Nat) : Nat :=
  (f.1 <<< 8) ||| (f.2.1 <<< 3) ||| f.2.2

/-- The event is a configuration-space read at offset `addr`. -/
def Event.is_read_of (addr : Nat) : Event → Bool
  | .cfg_read _ a _ => decide (a = addr)
  | _ => false

/-- Two descriptors that differ in nothing but the status their probes return:
same filters, probes both null or both present with the same effect on the
world. -/
def same_probe_effects {σ : Type} (t1 t2 : pcie_dev_type_s σ) : Prop :=
  t1.vendor = t2.vendor ∧ t1.device = t2.device ∧ t1.class_rev = t2.class_rev ∧
  match t1.probe, t2.probe with
  | some p, some q => ∀ bus b s, (p bus b s).2 = (q bus b s).2
  | none, none => True
  | _, _ => False

/-- A probe callback of a driver that fails with -EINVAL. -/
def failing_probe : pcie_bus_s Unit → Nat → Unit → Int × Unit :=
  fun _ _ _ => (-EINVAL, ())

/-- The value the header comment of `pci_find_cap` documents for a failed
search (lines 205-207: "-1: Capability not supported"). -/
def find_cap_documented_failure : Int := -1

/-! ## Lemmas on pci_enumerate -/

section enumerate_lemmas

variable {σ : Type}

theorem pci_enumerate_types_no_match (bus : pcie_bus_s σ) (bdf vid id rev : Nat)
    (ts : List (pcie_dev_type_s σ)) (i : Nat) (s : σ)
    (h : ∀ t ∈ ts, type_matches vid id rev t = false) :
    pci_enumerate_types bus bdf vid id rev ts i s = ([], s) := by
  induction ts generalizing i with
  | nil => rfl
  | cons t ts ih =>
    have ht := h t (List.mem_cons_self t ts)
    have hts : ∀ t' ∈ ts, type_matches vid id rev t' = false :=
      fun t' ht' => h t' (List.mem_cons_of_mem t ht')
    simp only [type_matches, Bool.and_eq_false_iff, Bool.or_eq_false_iff, beq_eq_false_iff_ne,
      ne_eq] at ht
    unfold pci_enumerate_types
    split_ifs with h1 h2 h3
    · exfalso
      rcases ht with (⟨a, b⟩ | ⟨a, b⟩) | ⟨a, b⟩
      · exact h1.elim a b
      · exact h2.elim a b
      · exact h3.elim a b
    · exact ih (i + 1) hts
    · exact ih (i + 1) hts
    · exact ih (i + 1) hts

theorem pci_enumerate_types_first_match (bus : pcie_bus_s σ) (bdf vid id rev : Nat)
    (pre : List (pcie_dev_type_s σ)) (t : pcie_dev_type_s σ) (post : List (pcie_dev_type_s σ))
    (i : Nat) (s : σ)
    (hpre : ∀ t' ∈ pre, type_matches vid id rev t' = false)
    (ht : type_matches vid id rev t = true) :
    pci_enumerate_types bus bdf vid id rev (pre ++ t :: post) i s =
      match t.probe with
      | some p => ([Event.probe (i + pre.length) bdf], (p bus bdf s).2)
      | none => ([], s) := by
  induction pre generalizing i with
  | nil =>
    simp only [type_matches, Bool.and_eq_true, Bool.or_eq_true, beq_iff_eq] at ht
    obtain ⟨⟨h1, h2⟩, h3⟩ := ht
    simp only [List.nil_append, List.length_nil, Nat.add_zero]
    unfold pci_enumerate_types
    rw [if_pos h1, if_pos h2, if_pos h3]
  | cons u pre ih =>
    have hu := hpre u (List.mem_cons_self u pre)
    have hpre2 : ∀ t' ∈ pre, type_matches vid id rev t' = false :=
      fun t' ht' => hpre t' (List.mem_cons_of_mem u ht')
    have step : pci_enumerate_types bus bdf vid id rev (u :: (pre ++ t :: post)) i s =
        pci_enumerate_types bus bdf vid id rev (pre ++ t :: post) (i + 1) s := by
      simp only [type_matches, Bool.and_eq_false_iff, Bool.or_eq_false_iff, beq_eq_false_iff_ne,
        ne_eq] at hu
      conv_lhs => unfold pci_enumerate_types
      split_ifs with h1 h2 h3
      · exfalso
        rcases hu with (⟨a, b⟩ | ⟨a, b⟩) | ⟨a, b⟩
        · exact h1.elim a b
        · exact h2.elim a b
        · exact h3.elim a b
      · rfl
      · rfl
      · rfl
    rw [List.cons_append, step, ih (i + 1) hpre2]
    simp only [List.length_cons]
    have e : i + 1 + pre.length = i + (pre.length + 1) := by omega
    rw [e]

/-- Every registry either has no matching descriptor or splits at its first one. -/
theorem registry_first_match (vid id rev : Nat) (ts : List (pcie_dev_type_s σ)) :
    (∀ t ∈ ts, type_matches vid id rev t = false) ∨
    ∃ pre t post, ts = pre ++ t :: post ∧ (∀ t' ∈ pre, type_matches vid id rev t' = false) ∧
      type_matches vid id rev t = true := by
  induction ts with
  | nil => left; intro t ht; cases ht
  | cons u ts ih =>
    by_cases hu : type_matches vid id rev u = true
    · right
      exact ⟨[], u, ts, rfl, (fun t' ht' => by cases ht'), hu⟩
    · have hu2 : type_matches vid id rev u = false := by simpa using hu
      rcases ih with h | ⟨pre, t, post, e, hp, ht⟩
      · left
        intro t ht
        rcases List.mem_cons.mp ht with rfl | h2
        · exact hu2
        · exact h t h2
      · right
        refine ⟨u :: pre, t, post, by rw [e]; rfl, ?_, ht⟩
        intro t' ht'
        rcases List.mem_cons.mp ht' with rfl | h2
        · exact hu2
        · exact hp t' h2

end enumerate_lemmas

section enumerate_steps

variable {σ : Type}

theorem pci_enumerate_body_eq (bus : pcie_bus_s σ) (types : List (pcie_dev_type_s σ))
    (b : Nat) (s : σ) :
    pci_enumerate_body bus types b s =
      ([Event.cfg_read b PCI_CFG_VENDOR_ID 2, Event.cfg_read b PCI_CFG_DEVICE_ID 2,
        Event.cfg_read b PCI_CFG_REVERSION 2] ++ (pci_enumerate_dispatch bus types b s).1,
        (pci_enumerate_dispatch bus types b s).2) := by
  unfold pci_enumerate_body pci_enumerate_dispatch read_identity
  dsimp only
  split_ifs with h
  · simp
  · rfl

theorem first_match_unique (vid id rev : Nat) (pre : List (pcie_dev_type_s σ))
    (t : pcie_dev_type_s σ) (post : List (pcie_dev_type_s σ))
    (hpre : ∀ u ∈ pre, type_matches vid id rev u = false)
    (ht : type_matches vid id rev t = true) (i : Nat) (t' : pcie_dev_type_s σ)
    (hi : (pre ++ t :: post)[i]? = some t') (hm : type_matches vid id rev t' = true)
    (hlow : ∀ j, j < i → ∀ u, (pre ++ t :: post)[j]? = some u →
      type_matches vid id rev u = false) :
    i = pre.length ∧ t' = t := by
  have hat : (pre ++ t :: post)[pre.length]? = some t := by
    rw [List.getElem?_append_right (Nat.le_refl _)]
    simp
  rcases Nat.lt_trichotomy i pre.length with h | h | h
  · exfalso
    rw [List.getElem?_append_left h] at hi
    have := hpre t' (List.getElem?_mem hi)
    rw [hm] at this
    cases this
  · subst h
    rw [hat] at hi
    exact ⟨rfl, (Option.some.inj hi).symm⟩
  · exfalso
    have := hlow pre.length h t hat
    rw [ht] at this
    cases this

theorem pci_enumerate_dispatch_spec (bus : pcie_bus_s σ) (types : List (pcie_dev_type_s σ))
    (b : Nat) (s : σ) :
    ((pci_enumerate_dispatch bus types b s).1 = [] ∨
      ∃ i, (pci_enumerate_dispatch bus types b s).1 = [Event.probe i b]) ∧
    (∀ i, Event.probe i b ∈ (pci_enumerate_dispatch bus types b s).1 ↔
      dispatch_rule types (read_identity bus b s).1 (read_identity bus b s).2.1
        (read_identity bus b s).2.2.1 i) ∧
    (∀ i t p, Event.probe i b ∈ (pci_enumerate_dispatch bus types b s).1 →
      types[i]? = some t → t.probe = some p →
      (pci_enumerate_dispatch bus types b s).2 = (p bus b (read_identity bus b s).2.2.2).2) := by
  generalize hI : read_identity bus b s = I
  obtain ⟨vid, id, rev, s3⟩ := I
  have hD : pci_enumerate_dispatch bus types b s =
      if vid = PCI_ID_ANY then ([], s3)
      else pci_enumerate_types bus b vid id rev types 0 s3 := by
    unfold pci_enumerate_dispatch
    rw [hI]
  rw [hD]
  dsimp only
  by_cases hv : vid = PCI_ID_ANY
  · rw [if_pos hv]
    refine ⟨Or.inl rfl, ?_, ?_⟩
    · intro i
      constructor
      · intro h; cases h
      · intro h; exact absurd hv h.1
    · intro i t p h; cases h
  · rw [if_neg hv]
    rcases registry_first_match vid id rev types with hno | ⟨pre, t, post, e, hpre, ht⟩
    · rw [pci_enumerate_types_no_match bus b vid id rev types 0 s3 hno]
      refine ⟨Or.inl rfl, ?_, ?_⟩
      · intro i
        constructor
        · intro h; cases h
        · rintro ⟨_, u, hu, hm, _⟩
          have := hno u (List.getElem?_mem hu)
          rw [hm] at this
          cases this
      · intro i t p h; cases h
    · subst e
      rw [pci_enumerate_types_first_match bus b vid id rev pre t post 0 s3 hpre ht]
      have hat : (pre ++ t :: post)[pre.length]? = some t := by
        rw [List.getElem?_append_right (Nat.le_refl _)]
        simp
      cases hp : t.probe with
      | none =>
        dsimp only
        refine ⟨Or.inl rfl, ?_, ?_⟩
        · intro i
          constructor
          · intro h; cases h
          · rintro ⟨_, u, hu, hm, hsome, hlow⟩
            obtain ⟨_, rfl⟩ := first_match_unique vid id rev pre t post hpre ht i u hu hm hlow
            rw [hp] at hsome
            cases hsome
        · intro i t p h; cases h
      | some p =>
        dsimp only
        rw [Nat.zero_add]
        refine ⟨Or.inr ⟨pre.length, rfl⟩, ?_, ?_⟩
        · intro i
          constructor
          · intro h
            have hi : i = pre.length := by
              simpa using h
            subst hi
            refine ⟨hv, t, hat, ht, by rw [hp]; rfl, ?_⟩
            intro j hj u hu
            rw [List.getElem?_append_left hj] at hu
            exact hpre u (List.getElem?_mem hu)
          · rintro ⟨_, u, hu, hm, hsome, hlow⟩
            obtain ⟨rfl, rfl⟩ := first_match_unique vid id rev pre t post hpre ht i u hu hm hlow
            exact List.mem_singleton_self _
        · intro i t' p' h hi hp'
          have hi2 : i = pre.length := by
            simpa using h
          subst hi2
          rw [hat] at hi
          cases hi
          rw [hp] at hp'
          cases hp'
          rfl

end enumerate_steps

section enumerate_scan

variable {σ : Type}

theorem pci_enumerate_scan_append (bus : pcie_bus_s σ) (types : List (pcie_dev_type_s σ))
    (l1 l2 : List Nat) (s : σ) :
    pci_enumerate_scan bus types (l1 ++ l2) s =
      ((pci_enumerate_scan bus types l1 s).1 ++
        (pci_enumerate_scan bus types l2 (pci_enumerate_scan bus types l1 s).2).1,
        (pci_enumerate_scan bus types l2 (pci_enumerate_scan bus types l1 s).2).2) := by
  induction l1 generalizing s with
  | nil => simp [pci_enumerate_scan]
  | cons b l1 ih =>
    rw [List.cons_append]
    simp only [pci_enumerate_scan]
    rw [ih]
    simp only [List.append_assoc]

theorem pci_enumerate_dispatch_target (bus : pcie_bus_s σ) (types : List (pcie_dev_type_s σ))
    (b : Nat) (s : σ) (e : Event) (he : e ∈ (pci_enumerate_dispatch bus types b s).1) :
    ∃ i, e = Event.probe i b := by
  rcases (pci_enumerate_dispatch_spec bus types b s).1 with h | ⟨i, h⟩
  · rw [h] at he; cases he
  · rw [h] at he
    exact ⟨i, List.mem_singleton.mp he⟩

theorem pci_enumerate_body_target (bus : pcie_bus_s σ) (types : List (pcie_dev_type_s σ))
    (b : Nat) (s : σ) (e : Event) (he : e ∈ (pci_enumerate_body bus types b s).1) :
    e.target = b := by
  rw [pci_enumerate_body_eq] at he
  rcases List.mem_append.mp he with h | h
  · simp only [List.mem_cons, List.mem_singleton, List.not_mem_nil, or_false] at h
    rcases h with rfl | rfl | rfl <;> rfl
  · obtain ⟨i, rfl⟩ := pci_enumerate_dispatch_target bus types b s e h
    rfl

theorem pci_enumerate_scan_target (bus : pcie_bus_s σ) (types : List (pcie_dev_type_s σ))
    (l : List Nat) (s : σ) (e : Event) (he : e ∈ (pci_enumerate_scan bus types l s).1) :
    e.target ∈ l := by
  induction l generalizing s with
  | nil => cases he
  | cons b l ih =>
    simp only [pci_enumerate_scan] at he
    rcases List.mem_append.mp he with h | h
    · rw [pci_enumerate_body_target bus types b s e h]
      exact List.mem_cons_self b l
    · exact List.mem_cons_of_mem b (ih _ h)

theorem range_split (b n : Nat) (h : b < n) :
    ∃ tail, List.range n = List.range b ++ b :: tail ∧ ∀ x ∈ tail, b < x := by
  obtain ⟨k, rfl⟩ : ∃ k, n = b + (k + 1) := ⟨n - b - 1, by omega⟩
  refine ⟨((List.range k).map Nat.succ).map (b + ·), ?_, ?_⟩
  · rw [List.range_add, List.range_succ_eq_map]
    simp
  · intro x hx
    simp only [List.mem_map, List.mem_range] at hx
    obtain ⟨y, ⟨z, _, rfl⟩, rfl⟩ := hx
    omega

/-- The calls of a scan that are probes for `b`, when `b` occurs once in the
scanned list: those of the dispatch of the step for `b`. -/
theorem pci_enumerate_scan_at (bus : pcie_bus_s σ) (types : List (pcie_dev_type_s σ))
    (pre post : List Nat) (b : Nat) (s : σ) (hpre : b ∉ pre) (hpost : b ∉ post) :
    (∀ i, Event.probe i b ∈ (pci_enumerate_scan bus types (pre ++ b :: post) s).1 ↔
      Event.probe i b ∈
        (pci_enumerate_dispatch bus types b (pci_enumerate_scan bus types pre s).2).1) ∧
    (pci_enumerate_scan bus types (pre ++ b :: post) s).1.filter (Event.is_probe_for b) =
      (pci_enumerate_dispatch bus types b (pci_enumerate_scan bus types pre s).2).1 := by
  rw [pci_enumerate_scan_append]
  simp only [pci_enumerate_scan]
  rw [pci_enumerate_body_eq]
  dsimp only
  constructor
  · intro i
    simp only [List.mem_append, List.mem_cons, List.not_mem_nil, or_false]
    constructor
    · rintro (h | ((h | h | h) | h) | h)
      · exact absurd (pci_enumerate_scan_target bus types pre s _ h) hpre
      · cases h
      · cases h
      · cases h
      · exact h
      · exact absurd (pci_enumerate_scan_target bus types post _ _ h) hpost
    · intro h
      exact Or.inr (Or.inl (Or.inr h))
  · simp only [List.filter_append]
    have h1 : (pci_enumerate_scan bus types pre s).1.filter (Event.is_probe_for b) = [] := by
      rw [List.filter_eq_nil_iff]
      intro e he hp
      have ht := pci_enumerate_scan_target bus types pre s e he
      cases e <;> simp [Event.is_probe_for] at hp
      subst hp
      exact hpre ht
    have h3 : ∀ s', (pci_enumerate_scan bus types post s').1.filter (Event.is_probe_for b)
        = [] := by
      intro s'
      rw [List.filter_eq_nil_iff]
      intro e he hp
      have ht := pci_enumerate_scan_target bus types post s' e he
      cases e <;> simp [Event.is_probe_for] at hp
      subst hp
      exact hpost ht
    have h2 : ∀ s', (pci_enumerate_dispatch bus types b s').1.filter (Event.is_probe_for b)
        = (pci_enumerate_dispatch bus types b s').1 := by
      intro s'
      rw [List.filter_eq_self]
      intro e he
      obtain ⟨i, rfl⟩ := pci_enumerate_dispatch_target bus types b s' e he
      simp [Event.is_probe_for]
    rw [h1, h3, h2]
    simp [List.filter, Event.is_probe_for]

end enumerate_scan

/-! ## Enumeration: dispatch, single device, invalid arguments -/

section enumerate_claims

variable {σ : Type}

theorem pci_enumerate_log_eq (n : Nat) (bus : pcie_bus_s σ) (types : List (pcie_dev_type_s σ))
    (s : σ) :
    (pci_enumerate n (some bus) (some types) s).log =
      (pci_enumerate_scan bus types (List.range n) s).1 ∧
    (pci_enumerate n (some bus) (some types) s).st =
      (pci_enumerate_scan bus types (List.range n) s).2 := ⟨rfl, rfl⟩

theorem pci_enumerate_step_st (b : Nat) (bus : pcie_bus_s σ) (types : List (pcie_dev_type_s σ))
    (s : σ) :
    (pci_enumerate (b + 1) (some bus) (some types) s).st =
      (pci_enumerate_dispatch bus types b (pci_enumerate b (some bus) (some types) s).st).2 := by
  rw [(pci_enumerate_log_eq (b + 1) bus types s).2, (pci_enumerate_log_eq b bus types s).2,
    List.range_succ, pci_enumerate_scan_append]
  simp only [pci_enumerate_scan]
  rw [pci_enumerate_body_eq]

/-- C1: for a non-null bus and registry, `pci_enumerate` returns OK and invokes
probes only for BDFs below `CONFIG_PCIE_MAX_BDF`; for each such BDF `b` it invokes
at most one probe, and it invokes the probe of registry entry `i` for `b` exactly
when the vendor ID read for `b` is not 0xFFFF, entry `i` matches the identity
read, has a non-null probe, and no entry of lower index matches (so a first
match with a null probe leaves `b` without probe); the invocation is that entry's
callback applied to the bus and `b`.  When every vendor ID read yields 0xFFFF no
probe is invoked at all. -/
theorem pci_enumerate_probe_dispatch (CONFIG_PCIE_MAX_BDF : Nat) (bus : pcie_bus_s σ)
    (types : List (pcie_dev_type_s σ)) (s : σ) :
    (pci_enumerate CONFIG_PCIE_MAX_BDF (some bus) (some types) s).ret = OK ∧
    (∀ i b, Event.probe i b ∈ (pci_enumerate CONFIG_PCIE_MAX_BDF (some bus) (some types) s).log →
      b < CONFIG_PCIE_MAX_BDF) ∧
    (∀ b, b < CONFIG_PCIE_MAX_BDF →
      ((pci_enumerate CONFIG_PCIE_MAX_BDF (some bus) (some types) s).log.filter
        (Event.is_probe_for b)).length ≤ 1 ∧
      (∀ i, Event.probe i b ∈ (pci_enumerate CONFIG_PCIE_MAX_BDF (some bus) (some types) s).log ↔
        dispatch_rule types
          (read_identity bus b (pci_enumerate b (some bus) (some types) s).st).1
          (read_identity bus b (pci_enumerate b (some bus) (some types) s).st).2.1
          (read_identity bus b (pci_enumerate b (some bus) (some types) s).st).2.2.1 i) ∧
      (∀ i t p,
        Event.probe i b ∈ (pci_enumerate CONFIG_PCIE_MAX_BDF (some bus) (some types) s).log →
        types[i]? = some t → t.probe = some p →
        (pci_enumerate (b + 1) (some bus) (some types) s).st =
          (p bus b (read_identity bus b (pci_enumerate b (some bus) (some types) s).st).2.2.2).2)) ∧
    ((∀ b s', u16 (bus.ops.pci_cfg_read b PCI_CFG_VENDOR_ID 2 s').2.1 = PCI_ID_ANY) →
      ∀ e ∈ (pci_enumerate CONFIG_PCIE_MAX_BDF (some bus) (some types) s).log,
        e.is_probe = false) := by
  have hlt : ∀ i b,
      Event.probe i b ∈ (pci_enumerate CONFIG_PCIE_MAX_BDF (some bus) (some types) s).log →
      b < CONFIG_PCIE_MAX_BDF := by
    intro i b h
    rw [(pci_enumerate_log_eq _ bus types s).1] at h
    exact List.mem_range.mp (pci_enumerate_scan_target bus types _ s _ h)
  have hat : ∀ b, b < CONFIG_PCIE_MAX_BDF →
      (∀ i, Event.probe i b ∈ (pci_enumerate CONFIG_PCIE_MAX_BDF (some bus) (some types) s).log ↔
        Event.probe i b ∈
          (pci_enumerate_dispatch bus types b (pci_enumerate b (some bus) (some types) s).st).1) ∧
      (pci_enumerate CONFIG_PCIE_MAX_BDF (some bus) (some types) s).log.filter
        (Event.is_probe_for b) =
        (pci_enumerate_dispatch bus types b (pci_enumerate b (some bus) (some types) s).st).1 := by
    intro b hb
    obtain ⟨tail, e, htail⟩ := range_split b CONFIG_PCIE_MAX_BDF hb
    rw [(pci_enumerate_log_eq _ bus types s).1, (pci_enumerate_log_eq b bus types s).2, e]
    refine pci_enumerate_scan_at bus types (List.range b) tail b s ?_ ?_
    · simp
    · intro h
      exact Nat.lt_irrefl b (htail b h)
  refine ⟨rfl, hlt, ?_, ?_⟩
  · intro b hb
    obtain ⟨hmem, hfil⟩ := hat b hb
    have hspec := pci_enumerate_dispatch_spec bus types b
      (pci_enumerate b (some bus) (some types) s).st
    refine ⟨?_, ?_, ?_⟩
    · rw [hfil]
      rcases hspec.1 with h | ⟨i, h⟩ <;> rw [h] <;> simp
    · intro i
      rw [hmem i]
      exact hspec.2.1 i
    · intro i t p h ht hp
      rw [pci_enumerate_step_st]
      exact hspec.2.2 i t p ((hmem i).mp h) ht hp
  · intro hall e he
    cases e with
    | probe i b =>
      exfalso
      have hb := hlt i b he
      have hd := (pci_enumerate_dispatch_spec bus types b
        (pci_enumerate b (some bus) (some types) s).st).2.1 i
      have := (hd.mp (((hat b hb).1 i).mp he)).1
      exact this (hall b _)
    | cfg_read _ _ _ => rfl
    | cfg_write _ _ _ _ => rfl
    | map_bar _ _ _ => rfl
    | map_bar64 _ _ _ => rfl

end enumerate_claims

section enumerate_single

variable {σ : Type}

theorem pci_enumerate_body_probes (bus : pcie_bus_s σ) (types : List (pcie_dev_type_s σ))
    (b : Nat) (s : σ) :
    (pci_enumerate_body bus types b s).1.filter Event.is_probe =
      (pci_enumerate_dispatch bus types b s).1 := by
  rw [pci_enumerate_body_eq]
  dsimp only
  rw [List.filter_append]
  have h : (pci_enumerate_dispatch bus types b s).1.filter Event.is_probe =
      (pci_enumerate_dispatch bus types b s).1 := by
    rw [List.filter_eq_self]
    intro e he
    obtain ⟨i, rfl⟩ := pci_enumerate_dispatch_target bus types b s e he
    rfl
  rw [h]
  simp [List.filter, Event.is_probe]

theorem pci_enumerate_dispatch_empty_slot (bus : pcie_bus_s σ)
    (types : List (pcie_dev_type_s σ)) (b : Nat) (s : σ)
    (h : u16 (bus.ops.pci_cfg_read b PCI_CFG_VENDOR_ID 2 s).2.1 = PCI_ID_ANY) :
    (pci_enumerate_dispatch bus types b s).1 = [] := by
  unfold pci_enumerate_dispatch
  have : (read_identity bus b s).1 = PCI_ID_ANY := h
  dsimp only
  rw [if_pos this]

theorem pci_enumerate_scan_empty_slots (bus : pcie_bus_s σ) (types : List (pcie_dev_type_s σ))
    (l : List Nat)
    (h : ∀ b ∈ l, ∀ s', u16 (bus.ops.pci_cfg_read b PCI_CFG_VENDOR_ID 2 s').2.1 = PCI_ID_ANY)
    (s : σ) :
    (pci_enumerate_scan bus types l s).1.filter Event.is_probe = [] := by
  induction l generalizing s with
  | nil => rfl
  | cons b l ih =>
    simp only [pci_enumerate_scan, List.filter_append]
    rw [pci_enumerate_body_probes,
      pci_enumerate_dispatch_empty_slot bus types b s (h b (List.mem_cons_self b l) s),
      ih (fun b' hb' => h b' (List.mem_cons_of_mem b hb'))]
    rfl

/-- C2: with the single descriptor `{V, D, ANY, P}` as registry and a bus on
which the vendor ID read yields `V` (not 0xFFFF) at BDF `k` and 0xFFFF at every
other BDF, and the device ID read at `k` yields `D`, the probe invocations of
`pci_enumerate` are exactly one invocation of the descriptor's probe `P`, with
BDF `k`. -/
theorem pci_enumerate_single_device (CONFIG_PCIE_MAX_BDF : Nat) (bus : pcie_bus_s σ)
    (name : String) (V D k : Nat) (P : pcie_bus_s σ → Nat → σ → Int × σ) (s : σ)
    (hk : k < CONFIG_PCIE_MAX_BDF) (hV : V ≠ 0xffff)
    (hvid : ∀ b s', u16 (bus.ops.pci_cfg_read b PCI_CFG_VENDOR_ID 2 s').2.1 =
      if b = k then V else 0xffff)
    (hdid : ∀ s', u16 (bus.ops.pci_cfg_read k PCI_CFG_DEVICE_ID 2 s').2.1 = D) :
    (pci_enumerate CONFIG_PCIE_MAX_BDF (some bus)
      (some [⟨name, V, D, PCI_ID_ANY, some P⟩]) s).log.filter Event.is_probe =
      [Event.probe 0 k] := by
  obtain ⟨tail, e, htail⟩ := range_split k CONFIG_PCIE_MAX_BDF hk
  rw [(pci_enumerate_log_eq _ bus _ s).1, e, pci_enumerate_scan_append]
  simp only [pci_enumerate_scan, List.filter_append]
  have hempty : ∀ b, b ≠ k → ∀ s',
      u16 (bus.ops.pci_cfg_read b PCI_CFG_VENDOR_ID 2 s').2.1 = PCI_ID_ANY := by
    intro b hb s'
    rw [hvid b s', if_neg hb]
    rfl
  rw [pci_enumerate_scan_empty_slots bus _ (List.range k)
      (fun b hb => hempty b (Nat.ne_of_lt (List.mem_range.mp hb))) s,
    pci_enumerate_scan_empty_slots bus _ tail
      (fun b hb => hempty b (Nat.ne_of_gt (htail b hb))),
    pci_enumerate_body_probes]
  have hd : ∀ s', (pci_enumerate_dispatch bus [⟨name, V, D, PCI_ID_ANY, some P⟩] k s').1 =
      [Event.probe 0 k] := by
    intro s'
    unfold pci_enumerate_dispatch read_identity
    dsimp only
    have h1 := hvid k s'
    rw [if_pos rfl] at h1
    rw [h1, hdid]
    have hV2 : V ≠ PCI_ID_ANY := hV
    rw [if_neg hV2]
    unfold pci_enumerate_types
    simp
  rw [hd]
  rfl

/-- C2, on a concrete bus: device 0x8086:0x100e at BDF 3 of 8, probed once. -/
theorem pci_enumerate_single_device_witness :
    (pci_enumerate 8 (some ⟨one_device_ops 3 0x8086 0x100e⟩)
      (some [⟨"e1000", 0x8086, 0x100e, PCI_ID_ANY, some accepting_probe⟩]) ()).log.filter
        Event.is_probe = [Event.probe 0 3] :=
  pci_enumerate_single_device 8 ⟨one_device_ops 3 0x8086 0x100e⟩ "e1000" 0x8086 0x100e 3
    accepting_probe () (by decide) (by decide)
    (by
      intro b s'
      by_cases h : b = 3 <;> simp [one_device_ops, h, u16, PCI_CFG_VENDOR_ID])
    (by intro s'; simp [one_device_ops, u16, PCI_CFG_DEVICE_ID])

/-- C3: `pci_enumerate` returns -EINVAL, issuing no call and leaving the world
untouched, when the bus is null or the registry is null; with a non-null bus and
a non-null registry it returns OK, never an error. -/
theorem pci_enumerate_invalid_arguments (CONFIG_PCIE_MAX_BDF : Nat) (s : σ) :
    (∀ types : Option (List (pcie_dev_type_s σ)),
      (pci_enumerate CONFIG_PCIE_MAX_BDF none types s).ret = -EINVAL ∧
      (pci_enumerate CONFIG_PCIE_MAX_BDF none types s).log = [] ∧
      (pci_enumerate CONFIG_PCIE_MAX_BDF none types s).st = s) ∧
    (∀ bus : Option (pcie_bus_s σ),
      (pci_enumerate CONFIG_PCIE_MAX_BDF bus none s).ret = -EINVAL ∧
      (pci_enumerate CONFIG_PCIE_MAX_BDF bus none s).log = [] ∧
      (pci_enumerate CONFIG_PCIE_MAX_BDF bus none s).st = s) ∧
    (∀ (bus : pcie_bus_s σ) (types : List (pcie_dev_type_s σ)),
      (pci_enumerate CONFIG_PCIE_MAX_BDF (some bus) (some types) s).ret = OK) ∧
    -EINVAL < 0 ∧ ¬ OK < 0 := by
  refine ⟨fun types => ⟨rfl, rfl, rfl⟩, fun bus => ?_, fun bus types => rfl, by decide, by decide⟩
  cases bus <;> exact ⟨rfl, rfl, rfl⟩

end enumerate_single

/-! ## pci_map_bar on a 64-bit BAR -/

section map_bar_claims

variable {σ : Type}

/-- C4, as the code has it: for an even BAR index (0, 2 or 4), if the value
read from the slot has the 64-bit type bit set, `pci_map_bar` returns -EINVAL
after that single read, calls no mapping operation and leaves the output
location unwritten.  For an odd index (1, 3 or 5) the 64-bit bit is not looked
at: with the I/O bit clear and a mapping operation present, the mapping is
requested for the raw value and the result is OK. -/
theorem pci_map_bar_64bit_even (dev : pcie_dev_s σ) (bar length : Nat) (ret : Bool) (s : σ)
    (hbar : bar ≤ 5)
    (h64 : u32 (dev.bus.ops.pci_cfg_read dev.bdf (PCI_CFG_BAR + bar * 4) 4 s).2.1
      &&& PCI_BAR_64BIT = PCI_BAR_64BIT) :
    (bar % 2 = 0 →
      (pci_map_bar dev bar length ret s).ret = -EINVAL ∧
      (pci_map_bar dev bar length ret s).log =
        [Event.cfg_read dev.bdf (PCI_CFG_BAR + bar * 4) 4] ∧
      (pci_map_bar dev bar length ret s).out = none) ∧
    (bar % 2 = 1 →
      u32 (dev.bus.ops.pci_cfg_read dev.bdf (PCI_CFG_BAR + bar * 4) 4 s).2.1
        &&& PCI_BAR_IO ≠ PCI_BAR_IO →
      dev.bus.ops.pci_map_bar.isSome = true →
      (pci_map_bar dev bar length ret s).ret = OK ∧
      (pci_map_bar dev bar length ret s).log =
        [Event.cfg_read dev.bdf (PCI_CFG_BAR + bar * 4) 4,
          Event.map_bar dev.bdf
            (u32 (dev.bus.ops.pci_cfg_read dev.bdf (PCI_CFG_BAR + bar * 4) 4 s).2.1) length]) := by
  have hb : ¬ bar > 5 := by omega
  constructor
  · intro heven
    unfold pci_map_bar
    rw [if_neg hb]
    dsimp only
    rw [if_pos (Or.inl ⟨heven, h64⟩)]
    exact ⟨rfl, rfl, rfl⟩
  · intro hodd hio hmap
    have hne : ¬ bar % 2 = 0 := by omega
    unfold pci_map_bar
    rw [if_neg hb]
    dsimp only
    rw [if_neg (by rintro (⟨h, _⟩ | h); exact hne h; exact hio h)]
    cases hm : dev.bus.ops.pci_map_bar with
    | none => rw [hm] at hmap; cases hmap
    | some f => exact ⟨rfl, rfl⟩

/-- C4 amended, on a concrete device: BAR 0 holding 0x4 is refused. -/
theorem pci_map_bar_64bit_even_witness :
    (0 % 2 = 0 →
      (pci_map_bar ⟨⟨const_ops 0 4⟩, 0⟩ 0 4096 true ()).ret = -EINVAL ∧
      (pci_map_bar ⟨⟨const_ops 0 4⟩, 0⟩ 0 4096 true ()).log =
        [Event.cfg_read 0 (PCI_CFG_BAR + 0 * 4) 4] ∧
      (pci_map_bar ⟨⟨const_ops 0 4⟩, 0⟩ 0 4096 true ()).out = none) ∧
    (0 % 2 = 1 →
      u32 ((const_ops 0 4).pci_cfg_read 0 (PCI_CFG_BAR + 0 * 4) 4 ()).2.1
        &&& PCI_BAR_IO ≠ PCI_BAR_IO →
      (const_ops 0 4).pci_map_bar.isSome = true →
      (pci_map_bar ⟨⟨const_ops 0 4⟩, 0⟩ 0 4096 true ()).ret = OK ∧
      (pci_map_bar ⟨⟨const_ops 0 4⟩, 0⟩ 0 4096 true ()).log =
        [Event.cfg_read 0 (PCI_CFG_BAR + 0 * 4) 4,
          Event.map_bar 0
            (u32 ((const_ops 0 4).pci_cfg_read 0 (PCI_CFG_BAR + 0 * 4) 4 ()).2.1) 4096]) :=
  pci_map_bar_64bit_even ⟨⟨const_ops 0 4⟩, 0⟩ 0 4096 true () (by decide) (by decide)

/-- C4 as stated fails at BAR index 1: the slot holds 0x4 (64-bit type bit set,
I/O bit clear), yet `pci_map_bar` returns OK and calls the mapping operation. -/
theorem pci_map_bar_64bit_odd_counterexample :
    u32 ((const_ops 0 4).pci_cfg_read 0 (PCI_CFG_BAR + 1 * 4) 4 ()).2.1 &&& PCI_BAR_64BIT
      = PCI_BAR_64BIT ∧
    (pci_map_bar ⟨⟨const_ops 0 4⟩, 0⟩ 1 4096 true ()).ret = OK ∧
    (pci_map_bar ⟨⟨const_ops 0 4⟩, 0⟩ 1 4096 true ()).ret ≠ -EINVAL ∧
    Event.map_bar 0 4 4096 ∈ (pci_map_bar ⟨⟨const_ops 0 4⟩, 0⟩ 1 4096 true ()).log := by
  decide

end map_bar_claims

/-! ## Reads issued for an empty slot -/

section empty_slot_claims

variable {σ : Type}

theorem filter_target_nil (l : List Event) (b : Nat) (h : ∀ e ∈ l, e.target ≠ b) :
    l.filter (fun e => decide (e.target = b)) = [] := by
  rw [List.filter_eq_nil_iff]
  intro e he hd
  exact h e he (of_decide_eq_true hd)

theorem filter_target_self (l : List Event) (b : Nat) (h : ∀ e ∈ l, e.target = b) :
    l.filter (fun e => decide (e.target = b)) = l := by
  rw [List.filter_eq_self]
  intro e he
  exact decide_eq_true (h e he)

/-- The calls of a scan addressed to `b`, when `b` occurs once in the scanned
list: those of the step for `b`. -/
theorem pci_enumerate_scan_calls_at (bus : pcie_bus_s σ) (types : List (pcie_dev_type_s σ))
    (pre post : List Nat) (b : Nat) (s : σ) (hpre : b ∉ pre) (hpost : b ∉ post) :
    (pci_enumerate_scan bus types (pre ++ b :: post) s).1.filter
      (fun e => decide (e.target = b)) =
      (pci_enumerate_body bus types b (pci_enumerate_scan bus types pre s).2).1 := by
  rw [pci_enumerate_scan_append]
  simp only [pci_enumerate_scan, List.filter_append]
  have h1 := filter_target_nil (pci_enumerate_scan bus types pre s).1 b
    (fun e he hb => hpre (hb ▸ pci_enumerate_scan_target bus types pre _ e he))
  have h2 := filter_target_self
    (pci_enumerate_body bus types b (pci_enumerate_scan bus types pre s).2).1 b
    (fun e he => pci_enumerate_body_target bus types b _ e he)
  have h3 := filter_target_nil (pci_enumerate_scan bus types post
    (pci_enumerate_body bus types b (pci_enumerate_scan bus types pre s).2).2).1 b
    (fun e he hb => hpost (hb ▸ pci_enumerate_scan_target bus types post _ e he))
  rw [h1, h2, h3]
  simp

/-- C5, as the code has it: the three identity reads come before the test of the
vendor ID, so for a BDF `b` below `CONFIG_PCIE_MAX_BDF` whose vendor ID read
returns 0xFFFF the calls `pci_enumerate` issues for `b` are exactly the 2-byte
reads of the vendor ID (0x00), the device ID (0x02) and the revision/class
(0x08), in this order: no probe and no other transport operation. -/
theorem pci_enumerate_empty_slot_reads (CONFIG_PCIE_MAX_BDF : Nat) (bus : pcie_bus_s σ)
    (types : List (pcie_dev_type_s σ)) (s : σ) (b : Nat) (hb : b < CONFIG_PCIE_MAX_BDF)
    (hvid : (read_identity bus b (pci_enumerate b (some bus) (some types) s).st).1 =
      PCI_ID_ANY) :
    (pci_enumerate CONFIG_PCIE_MAX_BDF (some bus) (some types) s).log.filter
      (fun e => decide (e.target = b)) =
      [Event.cfg_read b PCI_CFG_VENDOR_ID 2, Event.cfg_read b PCI_CFG_DEVICE_ID 2,
        Event.cfg_read b PCI_CFG_REVERSION 2] := by
  obtain ⟨tail, e, htail⟩ := range_split b CONFIG_PCIE_MAX_BDF hb
  have hvid2 : u16 (bus.ops.pci_cfg_read b PCI_CFG_VENDOR_ID 2
      (pci_enumerate_scan bus types (List.range b) s).2).2.1 = PCI_ID_ANY := hvid
  rw [(pci_enumerate_log_eq _ bus types s).1, e,
    pci_enumerate_scan_calls_at bus types (List.range b) tail b s (by simp)
      (fun h => Nat.lt_irrefl b (htail b h)),
    pci_enumerate_body_eq]
  dsimp only
  rw [pci_enumerate_dispatch_empty_slot bus types b _ hvid2]
  rfl

/-- C5 amended, on a concrete bus: the empty slot 1 of a bus of 2 gets three reads. -/
theorem pci_enumerate_empty_slot_reads_witness :
    (pci_enumerate 2 (some ⟨const_ops 0 0xffff⟩)
      (some [⟨"any", PCI_ID_ANY, PCI_ID_ANY, PCI_ID_ANY, some accepting_probe⟩]) ()).log.filter
      (fun e => decide (e.target = 1)) =
      [Event.cfg_read 1 PCI_CFG_VENDOR_ID 2, Event.cfg_read 1 PCI_CFG_DEVICE_ID 2,
        Event.cfg_read 1 PCI_CFG_REVERSION 2] :=
  pci_enumerate_empty_slot_reads 2 ⟨const_ops 0 0xffff⟩
    [⟨"any", PCI_ID_ANY, PCI_ID_ANY, PCI_ID_ANY, some accepting_probe⟩] () 1 (by decide)
    (by decide)

/-- C5 as stated fails on a bus of one slot whose vendor ID read returns
0xFFFF: the device ID and the revision/class are read all the same. -/
theorem pci_enumerate_empty_slot_counterexample :
    u16 ((const_ops 0 0xffff).pci_cfg_read 0 PCI_CFG_VENDOR_ID 2 ()).2.1 = 0xffff ∧
    (pci_enumerate 1 (some ⟨const_ops 0 0xffff⟩) (some []) ()).log =
      [Event.cfg_read 0 PCI_CFG_VENDOR_ID 2, Event.cfg_read 0 PCI_CFG_DEVICE_ID 2,
        Event.cfg_read 0 PCI_CFG_REVERSION 2] ∧
    (pci_enumerate 1 (some ⟨const_ops 0 0xffff⟩) (some []) ()).log ≠
      [Event.cfg_read 0 PCI_CFG_VENDOR_ID 2] := by
  decide

end empty_slot_claims

/-! ## Index validation of the BAR accessors -/

section index_claims

variable {σ : Type}

/-- C7: `pci_get_bar`, `pci_set_bar` and `pci_map_bar` called with `bar > 5`,
and `pci_get_bar64`, `pci_set_bar64` and `pci_map_bar64` called with `bar > 4` or
`bar` odd, return -EINVAL with no call issued (no read, no write, no map
request), the world unchanged and the output location unwritten; `pci_get_bar`
and `pci_set_bar` with `bar ≤ 5`, and `pci_get_bar64` and `pci_set_bar64` with
`bar` in {0, 2, 4}, return OK. -/
theorem bar_index_validation (dev : pcie_dev_s σ) (bar val length : Nat) (ret : Bool) (s : σ) :
    (bar > 5 →
      ((pci_get_bar dev bar s).ret = -EINVAL ∧ (pci_get_bar dev bar s).log = [] ∧
        (pci_get_bar dev bar s).out = none ∧ (pci_get_bar dev bar s).st = s) ∧
      ((pci_set_bar dev bar val s).ret = -EINVAL ∧ (pci_set_bar dev bar val s).log = [] ∧
        (pci_set_bar dev bar val s).st = s) ∧
      ((pci_map_bar dev bar length ret s).ret = -EINVAL ∧
        (pci_map_bar dev bar length ret s).log = [] ∧
        (pci_map_bar dev bar length ret s).out = none ∧
        (pci_map_bar dev bar length ret s).st = s)) ∧
    (bar > 4 ∨ bar % 2 = 1 →
      ((pci_get_bar64 dev bar s).ret = -EINVAL ∧ (pci_get_bar64 dev bar s).log = [] ∧
        (pci_get_bar64 dev bar s).out = none ∧ (pci_get_bar64 dev bar s).st = s) ∧
      ((pci_set_bar64 dev bar val s).ret = -EINVAL ∧ (pci_set_bar64 dev bar val s).log = [] ∧
        (pci_set_bar64 dev bar val s).st = s) ∧
      ((pci_map_bar64 dev bar length ret s).ret = -EINVAL ∧
        (pci_map_bar64 dev bar length ret s).log = [] ∧
        (pci_map_bar64 dev bar length ret s).out = none ∧
        (pci_map_bar64 dev bar length ret s).st = s)) ∧
    (bar ≤ 5 → (pci_get_bar dev bar s).ret = OK ∧ (pci_set_bar dev bar val s).ret = OK) ∧
    (bar = 0 ∨ bar = 2 ∨ bar = 4 →
      (pci_get_bar64 dev bar s).ret = OK ∧ (pci_set_bar64 dev bar val s).ret = OK) ∧
    -EINVAL ≠ OK := by
  refine ⟨?_, ?_, ?_, ?_, by decide⟩
  · intro h
    simp [pci_get_bar, pci_set_bar, pci_map_bar, h]
  · intro h
    have h2 : bar > 4 ∨ bar % 2 ≠ 0 := by omega
    simp only [pci_get_bar64, pci_set_bar64, pci_map_bar64, if_pos h2]
    simp
  · intro h
    have h2 : ¬ bar > 5 := by omega
    simp only [pci_get_bar, pci_set_bar, if_neg h2]
    simp
  · intro h
    have h2 : ¬ (bar > 4 ∨ bar % 2 ≠ 0) := by omega
    simp only [pci_get_bar64, pci_set_bar64, if_neg h2]
    simp

end index_claims

/-! ## Transport statuses -/

section status_claims

variable {σ : Type}

end status_claims

/-! ## pci_find_cap -/

section find_cap_claims

variable {σ : Type}

theorem cap_chain_shift (dev : pcie_dev_s σ) (s : σ) (pos j : Nat) :
    cap_chain dev s pos (j + 1) = cap_chain dev s (cap_chain dev s pos 0) j := by
  induction j with
  | zero => rfl
  | succ j ih =>
    show u8 (dev.bus.ops.pci_cfg_read dev.bdf (cap_chain dev s pos (j + 1) + 1) 1 s).2.1 =
      u8 (dev.bus.ops.pci_cfg_read dev.bdf
        (cap_chain dev s (cap_chain dev s pos 0) j + 1) 1 s).2.1
    rw [ih]

theorem cap_chain_le (dev : pcie_dev_s σ) (s : σ) (pos j : Nat) :
    cap_chain dev s pos j ≤ 255 := by
  cases j <;> simp only [cap_chain, u8] <;> omega

theorem pci_find_cap_walk_step (dev : pcie_dev_s σ) (cap fuel pos : Nat) (s : σ)
    (hrd : ∀ addr size, (dev.bus.ops.pci_cfg_read dev.bdf addr size s).2.2 = s) :
    pci_find_cap_walk dev cap (fuel + 1) pos s =
      if cap_chain dev s pos 0 = 0 then
        some ⟨-EINVAL, [Event.cfg_read dev.bdf (pos + 1) 1], s⟩
      else if cap_id dev s (cap_chain dev s pos 0) = cap then
        some ⟨(cap_chain dev s pos 0 : Int),
          [Event.cfg_read dev.bdf (pos + 1) 1, Event.cfg_read dev.bdf (cap_chain dev s pos 0) 1],
          s⟩
      else
        (pci_find_cap_walk dev cap fuel (cap_chain dev s pos 0) s).map fun x =>
          ⟨x.ret, Event.cfg_read dev.bdf (pos + 1) 1 ::
            Event.cfg_read dev.bdf (cap_chain dev s pos 0) 1 :: x.log, x.st⟩ := by
  conv_lhs => unfold pci_find_cap_walk
  simp only [hrd, cap_chain, cap_id]

theorem pci_find_cap_walk_found (dev : pcie_dev_s σ) (cap : Nat) (s : σ)
    (hrd : ∀ addr size, (dev.bus.ops.pci_cfg_read dev.bdf addr size s).2.2 = s)
    (k : Nat) : ∀ (pos fuel : Nat), k < fuel →
    (∀ j, j ≤ k → cap_chain dev s pos j ≠ 0) →
    cap_id dev s (cap_chain dev s pos k) = cap →
    (∀ j, j < k → cap_id dev s (cap_chain dev s pos j) ≠ cap) →
    ∃ r, pci_find_cap_walk dev cap fuel pos s = some r ∧
      r.ret = (cap_chain dev s pos k : Int) ∧ r.st = s := by
  induction k with
  | zero =>
    intro pos fuel hf hnz hid _
    obtain ⟨f, rfl⟩ : ∃ f, fuel = f + 1 := ⟨fuel - 1, by omega⟩
    rw [pci_find_cap_walk_step dev cap f pos s hrd, if_neg (hnz 0 (Nat.le_refl 0)), if_pos hid]
    exact ⟨_, rfl, rfl, rfl⟩
  | succ k ih =>
    intro pos fuel hf hnz hid hfirst
    obtain ⟨f, rfl⟩ : ∃ f, fuel = f + 1 := ⟨fuel - 1, by omega⟩
    rw [pci_find_cap_walk_step dev cap f pos s hrd, if_neg (hnz 0 (Nat.zero_le _)),
      if_neg (hfirst 0 (Nat.succ_pos k))]
    obtain ⟨r, hr, hret, hst⟩ := ih (cap_chain dev s pos 0) f (by omega)
      (fun j hj => by rw [← cap_chain_shift]; exact hnz (j + 1) (by omega))
      (by rw [← cap_chain_shift]; exact hid)
      (fun j hj => by rw [← cap_chain_shift]; exact hfirst (j + 1) (by omega))
    rw [hr]
    refine ⟨_, rfl, ?_, hst⟩
    rw [cap_chain_shift]
    exact hret

theorem pci_find_cap_walk_not_found (dev : pcie_dev_s σ) (cap : Nat) (s : σ)
    (hrd : ∀ addr size, (dev.bus.ops.pci_cfg_read dev.bdf addr size s).2.2 = s)
    (n : Nat) : ∀ (pos fuel : Nat), n < fuel →
    (∀ j, j < n → cap_chain dev s pos j ≠ 0) →
    cap_chain dev s pos n = 0 →
    (∀ j, j < n → cap_id dev s (cap_chain dev s pos j) ≠ cap) →
    ∃ r, pci_find_cap_walk dev cap fuel pos s = some r ∧
      r.ret = -EINVAL ∧ r.st = s ∧ r.log.length = 2 * n + 1 ∧
      ∃ a, r.log.getLast? = some (Event.cfg_read dev.bdf a 1) ∧
        u8 (dev.bus.ops.pci_cfg_read dev.bdf a 1 s).2.1 = 0 := by
  induction n with
  | zero =>
    intro pos fuel hf _ hend _
    obtain ⟨f, rfl⟩ : ∃ f, fuel = f + 1 := ⟨fuel - 1, by omega⟩
    rw [pci_find_cap_walk_step dev cap f pos s hrd, if_pos hend]
    exact ⟨_, rfl, rfl, rfl, rfl, pos + 1, rfl, hend⟩
  | succ n ih =>
    intro pos fuel hf hnz hend hno
    obtain ⟨f, rfl⟩ : ∃ f, fuel = f + 1 := ⟨fuel - 1, by omega⟩
    rw [pci_find_cap_walk_step dev cap f pos s hrd, if_neg (hnz 0 (Nat.succ_pos n)),
      if_neg (hno 0 (Nat.succ_pos n))]
    obtain ⟨r, hr, hret, hst, hlen, a, hlast, ha⟩ := ih (cap_chain dev s pos 0) f (by omega)
      (fun j hj => by rw [← cap_chain_shift]; exact hnz (j + 1) (by omega))
      (by rw [← cap_chain_shift]; exact hend)
      (fun j hj => by rw [← cap_chain_shift]; exact hno (j + 1) (by omega))
    rw [hr]
    refine ⟨_, rfl, hret, hst, ?_, a, ?_, ha⟩
    · simp only [List.length_cons, hlen]
      omega
    · have hne : r.log ≠ [] := by
        intro h0
        rw [h0] at hlen
        simp at hlen
      obtain ⟨x, xs, hx⟩ := List.exists_cons_of_ne_nil hne
      rw [hx] at hlast
      simp only [hx]
      simpa [List.getLast?_cons_cons] using hlast

end find_cap_claims

section find_cap_results

variable {σ : Type}

/-- C8: on the cyclic capability list (the node at 0x40 has ID 0x05 and next
pointer 0x40, the target is 0x11) the walk of `pci_find_cap` returns nothing,
however many iterations it is given: the loop has no iteration bound and never
returns an error there. -/
theorem pci_find_cap_cyclic_never_returns (fuel : Nat) :
    pci_find_cap fuel ⟨⟨cfg_ops cyclic_caps_cfg⟩, 0⟩ 0x11 () = none := by
  have hrd : ∀ addr size,
      ((cfg_ops cyclic_caps_cfg).pci_cfg_read 0 addr size ()).2.2 = () := fun _ _ => rfl
  have hloop : ∀ f, pci_find_cap_walk ⟨⟨cfg_ops cyclic_caps_cfg⟩, 0⟩ 0x11 f 0x40 () = none := by
    intro f
    induction f with
    | zero => rfl
    | succ f ih =>
      rw [pci_find_cap_walk_step ⟨⟨cfg_ops cyclic_caps_cfg⟩, 0⟩ 0x11 f 0x40 () hrd,
        if_neg (by decide), if_neg (by decide)]
      have h40 : cap_chain ⟨⟨cfg_ops cyclic_caps_cfg⟩, 0⟩ () 0x40 0 = 0x40 := by decide
      rw [h40, ih]
      rfl
  unfold pci_find_cap
  dsimp only
  rw [if_neg (by decide)]
  cases fuel with
  | zero => rfl
  | succ f =>
    rw [pci_find_cap_walk_step ⟨⟨cfg_ops cyclic_caps_cfg⟩, 0⟩ 0x11 f _ () hrd,
      if_neg (by decide), if_neg (by decide)]
    have h40 : cap_chain ⟨⟨cfg_ops cyclic_caps_cfg⟩, 0⟩ () (PCI_CFG_CAP_PTR - 1) 0 = 0x40 := by
      decide
    rw [h40, hloop f]
    rfl

/-- C9: for a device whose configuration reads leave the state alone, whose
status register has the capabilities bit set and whose capability list reaches
the next pointer 0 after `n` nodes, if node `k` is the first whose 1-byte ID
equals the target, then `pci_find_cap` (given more than `k` loop iterations)
returns the offset of node `k`, a value in 1..255 whose ID byte is the target. -/
theorem pci_find_cap_first_match (dev : pcie_dev_s σ) (s : σ) (cap n k fuel : Nat)
    (hrd : ∀ addr size, (dev.bus.ops.pci_cfg_read dev.bdf addr size s).2.2 = s)
    (hcaps : u16 (dev.bus.ops.pci_cfg_read dev.bdf PCI_CFG_STATUS 2 s).2.1 &&& PCI_STS_CAPS ≠ 0)
    (hnodes : ∀ j, j < n → cap_node dev s j ≠ 0) (hend : cap_node dev s n = 0)
    (hk : k < n) (hid : cap_id dev s (cap_node dev s k) = cap)
    (hfirst : ∀ j, j < k → cap_id dev s (cap_node dev s j) ≠ cap)
    (hfuel : k < fuel) :
    (pci_find_cap fuel dev cap s).map (fun r => r.ret) = some (cap_node dev s k : Int) ∧
    1 ≤ cap_node dev s k ∧ cap_node dev s k ≤ 255 ∧
    cap_id dev s (cap_node dev s k) = cap := by
  have hne : cap_node dev s k ≠ 0 := hnodes k hk
  have hne_end : k ≠ n := fun h => hne (h ▸ hend)
  obtain ⟨r, hr, hret, _⟩ := pci_find_cap_walk_found dev cap s hrd k (PCI_CFG_CAP_PTR - 1) fuel
    hfuel (fun j hj => hnodes j (by omega)) hid hfirst
  refine ⟨?_, by omega, cap_chain_le dev s _ k, hid⟩
  unfold pci_find_cap
  dsimp only
  rw [if_neg hcaps, hrd, hr]
  simp only [Option.map_some', hret]
  rfl

/-- C9 on the list `[cap 0x05 @0x40 -> 0x60] -> [cap 0x11 @0x60 -> 0x00]`:
searching for 0x11 returns 0x60. -/
theorem pci_find_cap_first_match_witness :
    (pci_find_cap 2 ⟨⟨cfg_ops two_caps_cfg⟩, 0⟩ 0x11 ()).map (fun r => r.ret) = some 0x60 ∧
    cap_node ⟨⟨cfg_ops two_caps_cfg⟩, 0⟩ () 1 = 0x60 ∧
    cap_id ⟨⟨cfg_ops two_caps_cfg⟩, 0⟩ () 0x60 = 0x11 :=
  ⟨(pci_find_cap_first_match ⟨⟨cfg_ops two_caps_cfg⟩, 0⟩ () 0x11 2 1 2 (fun _ _ => rfl)
    (by decide) (by decide) (by decide) (by decide) (by decide) (by decide) (by decide)).1,
    by decide, by decide⟩

/-- The exhausted-list path of `pci_find_cap`: for a device whose configuration
reads leave the state alone, whose status register has the capabilities bit set
and whose capability list reaches the next pointer 0 after `n` nodes none of
which carries the target ID, the walk (given more than `n` loop iterations)
stops on reading the terminating 0, after the status read and `2 * n + 1`
further reads, and returns -EINVAL: the very status returned for any device
whose capabilities bit is clear. -/
theorem pci_find_cap_not_found (dev : pcie_dev_s σ) (s : σ) (cap n fuel : Nat)
    (hrd : ∀ addr size, (dev.bus.ops.pci_cfg_read dev.bdf addr size s).2.2 = s)
    (hcaps : u16 (dev.bus.ops.pci_cfg_read dev.bdf PCI_CFG_STATUS 2 s).2.1 &&& PCI_STS_CAPS ≠ 0)
    (hnodes : ∀ j, j < n → cap_node dev s j ≠ 0) (hend : cap_node dev s n = 0)
    (hno : ∀ j, j < n → cap_id dev s (cap_node dev s j) ≠ cap)
    (hfuel : n < fuel) :
    (∃ r, pci_find_cap fuel dev cap s = some r ∧ r.ret = -EINVAL ∧ r.st = s ∧
      r.log.length = 2 * n + 2 ∧
      ∃ a, r.log.getLast? = some (Event.cfg_read dev.bdf a 1) ∧
        u8 (dev.bus.ops.pci_cfg_read dev.bdf a 1 s).2.1 = 0) ∧
    (∀ (dev' : pcie_dev_s σ) (s' : σ) (fuel' : Nat),
      u16 (dev'.bus.ops.pci_cfg_read dev'.bdf PCI_CFG_STATUS 2 s').2.1 &&& PCI_STS_CAPS = 0 →
      (pci_find_cap fuel' dev' cap s').map (fun r => r.ret) = some (-EINVAL)) ∧
    -EINVAL < 0 := by
  refine ⟨?_, ?_, by decide⟩
  · obtain ⟨r, hr, hret, hst, hlen, a, hlast, ha⟩ :=
      pci_find_cap_walk_not_found dev cap s hrd n (PCI_CFG_CAP_PTR - 1) fuel hfuel hnodes hend hno
    unfold pci_find_cap
    dsimp only
    rw [if_neg hcaps, hrd, hr]
    refine ⟨_, rfl, hret, hst, ?_, a, ?_, ha⟩
    · simp only [List.length_cons, hlen]
    · have hne : r.log ≠ [] := by
        intro h0
        rw [h0] at hlen
        simp at hlen
      obtain ⟨x, xs, hx⟩ := List.exists_cons_of_ne_nil hne
      rw [hx] at hlast
      simp only [hx]
      simpa [List.getLast?_cons_cons] using hlast
  · intro dev' s' fuel' h
    unfold pci_find_cap
    dsimp only
    rw [if_pos h]
    rfl

/-- The exhausted-list path on the list
`[cap 0x05 @0x40 -> 0x60] -> [cap 0x11 @0x60 -> 0x00]`: searching for 0x99 ends on
the terminating 0 with -EINVAL. -/
theorem pci_find_cap_not_found_witness :
    ∃ r, pci_find_cap 3 ⟨⟨cfg_ops two_caps_cfg⟩, 0⟩ 0x99 () = some r ∧ r.ret = -EINVAL ∧
      r.st = () ∧ r.log.length = 2 * 2 + 2 ∧
      ∃ a, r.log.getLast? = some (Event.cfg_read 0 a 1) ∧
        u8 ((cfg_ops two_caps_cfg).pci_cfg_read 0 a 1 ()).2.1 = 0 :=
  (pci_find_cap_not_found ⟨⟨cfg_ops two_caps_cfg⟩, 0⟩ () 0x99 2 3 (fun _ _ => rfl)
    (by decide) (by decide) (by decide) (by decide) (by decide)).1

/-- C10: on the list `[cap 0x05 @0x40 -> 0x60] -> [cap 0x11 @0x60 -> 0x00]`
searched for 0x99, `pci_find_cap` stops on reading the terminating 0 (its last
call is the 1-byte read at 0x61) and returns -EINVAL, that is -22: not the -1
its header comment documents for an unsupported capability, and not a status
distinct from the one returned for a device whose capabilities bit is clear (an
all-zero configuration space), which is -EINVAL as well. -/
theorem pci_find_cap_not_found_status :
    (pci_find_cap 3 ⟨⟨cfg_ops two_caps_cfg⟩, 0⟩ 0x99 ()).map (fun r => r.ret) = some (-EINVAL) ∧
    (pci_find_cap 3 ⟨⟨cfg_ops two_caps_cfg⟩, 0⟩ 0x99 ()).map (fun r => r.ret) = some (-22) ∧
    (pci_find_cap 3 ⟨⟨cfg_ops two_caps_cfg⟩, 0⟩ 0x99 ()).map (fun r => r.ret) ≠
      some find_cap_documented_failure ∧
    (pci_find_cap 3 ⟨⟨cfg_ops two_caps_cfg⟩, 0⟩ 0x99 ()).map (fun r => r.log) =
      some [Event.cfg_read 0 PCI_CFG_STATUS 2, Event.cfg_read 0 PCI_CFG_CAP_PTR 1,
        Event.cfg_read 0 0x40 1, Event.cfg_read 0 0x41 1, Event.cfg_read 0 0x60 1,
        Event.cfg_read 0 0x61 1] ∧
    u16 ((cfg_ops (fun _ => 0)).pci_cfg_read 0 PCI_CFG_STATUS 2 ()).2.1 &&& PCI_STS_CAPS = 0 ∧
    (pci_find_cap 3 ⟨⟨cfg_ops (fun _ => 0)⟩, 0⟩ 0x99 ()).map (fun r => r.ret) = some (-EINVAL) ∧
    (pci_find_cap 3 ⟨⟨cfg_ops two_caps_cfg⟩, 0⟩ 0x99 ()).map (fun r => r.ret) =
      (pci_find_cap 3 ⟨⟨cfg_ops (fun _ => 0)⟩, 0⟩ 0x99 ()).map (fun r => r.ret) := by
  decide

end find_cap_results

/-! ## Concrete instances -/

/-- C1 on a concrete bus: the device 0x8086:0x100e at BDF 3 first matches
registry entry 1, whose probe is null, so neither that entry nor the later
matching entry 2 is probed. -/
theorem pci_enumerate_probe_dispatch_witness :
    Event.probe 1 3 ∉
      (pci_enumerate 8 (some ⟨one_device_ops 3 0x8086 0x100e⟩) (some sample_registry) ()).log ∧
    Event.probe 2 3 ∉
      (pci_enumerate 8 (some ⟨one_device_ops 3 0x8086 0x100e⟩) (some sample_registry) ()).log := by
  have h := (pci_enumerate_probe_dispatch 8 ⟨one_device_ops 3 0x8086 0x100e⟩ sample_registry
    ()).2.2.1 3 (by decide)
  constructor
  · intro hmem
    obtain ⟨_, t, ht, _, hp, _⟩ := (h.2.1 1).mp hmem
    have e : t = ⟨"intel-unclaimed", 0x8086, PCI_ID_ANY, PCI_ID_ANY, none⟩ :=
      (Option.some.inj ht).symm
    rw [e] at hp
    cases hp
  · intro hmem
    obtain ⟨_, _, _, _, _, hlow⟩ := (h.2.1 2).mp hmem
    exact absurd (hlow 1 (by decide) _ rfl) (by decide)

/-- C7 on concrete indices: 6 is refused by the 32-bit accessors, 3 and 6 by the
64-bit ones, without any call; 4 is accepted by both. -/
theorem bar_index_validation_witness :
    ((pci_get_bar ⟨⟨const_ops 0 0⟩, 0⟩ 6 ()).ret = -EINVAL ∧
      (pci_get_bar ⟨⟨const_ops 0 0⟩, 0⟩ 6 ()).log = []) ∧
    ((pci_map_bar64 ⟨⟨const_ops 0 0⟩, 0⟩ 3 4096 true ()).ret = -EINVAL ∧
      (pci_map_bar64 ⟨⟨const_ops 0 0⟩, 0⟩ 3 4096 true ()).log = []) ∧
    (pci_set_bar ⟨⟨const_ops 0 0⟩, 0⟩ 4 7 ()).ret = OK ∧
    (pci_get_bar64 ⟨⟨const_ops 0 0⟩, 0⟩ 4 ()).ret = OK :=
  ⟨⟨((bar_index_validation ⟨⟨const_ops 0 0⟩, 0⟩ 6 7 4096 true ()).1 (by decide)).1.1,
      ((bar_index_validation ⟨⟨const_ops 0 0⟩, 0⟩ 6 7 4096 true ()).1 (by decide)).1.2.1⟩,
    ⟨((bar_index_validation ⟨⟨const_ops 0 0⟩, 0⟩ 3 7 4096 true ()).2.1 (by decide)).2.2.1,
      ((bar_index_validation ⟨⟨const_ops 0 0⟩, 0⟩ 3 7 4096 true ()).2.1 (by decide)).2.2.2.1⟩,
    ((bar_index_validation ⟨⟨const_ops 0 0⟩, 0⟩ 4 7 4096 true ()).2.2.1 (by decide)).2,
    ((bar_index_validation ⟨⟨const_ops 0 0⟩, 0⟩ 4 7 4096 true ()).2.2.2.1 (by decide)).1⟩

/-! ## pci_find_cap without a capability list -/

section find_cap_no_list

variable {σ : Type}

/-- C11: for a device whose 16-bit status register (offset 0x06) has the
capabilities-list bit clear, `pci_find_cap` returns -EINVAL for every target ID
(no loop iteration is needed), and the 2-byte status read is the only call it
issues. -/
theorem pci_find_cap_no_caps (fuel : Nat) (dev : pcie_dev_s σ) (cap : Nat) (s : σ)
    (hclear : u16 (dev.bus.ops.pci_cfg_read dev.bdf PCI_CFG_STATUS 2 s).2.1 &&& PCI_STS_CAPS = 0) :
    ∃ r, pci_find_cap fuel dev cap s = some r ∧ r.ret = -EINVAL ∧
      r.log = [Event.cfg_read dev.bdf PCI_CFG_STATUS 2] ∧
      r.st = (dev.bus.ops.pci_cfg_read dev.bdf PCI_CFG_STATUS 2 s).2.2 := by
  unfold pci_find_cap
  dsimp only
  rw [if_pos hclear]
  exact ⟨_, rfl, rfl, rfl, rfl⟩

/-- C11 on a device with an all-zero configuration space, searched for 0x05
with no loop iteration allowed. -/
theorem pci_find_cap_no_caps_witness :
    ∃ r, pci_find_cap 0 ⟨⟨cfg_ops (fun _ => 0)⟩, 7⟩ 0x05 () = some r ∧ r.ret = -EINVAL ∧
      r.log = [Event.cfg_read 7 PCI_CFG_STATUS 2] ∧
      r.st = ((cfg_ops (fun _ => 0)).pci_cfg_read 7 PCI_CFG_STATUS 2 ()).2.2 :=
  pci_find_cap_no_caps 0 ⟨⟨cfg_ops (fun _ => 0)⟩, 7⟩ 0x05 () (by decide)

end find_cap_no_list

/-! ## pci_get_bar64 -/

section get_bar64_claims

variable {σ : Type}

theorem shl32_or (high low : Nat) (hh : high < 2 ^ 32) (hl : low < 2 ^ 32) :
    u64 (high <<< 32) ||| low = high * 2 ^ 32 + low := by
  have h1 : high <<< 32 = 2 ^ 32 * high := by rw [Nat.shiftLeft_eq, Nat.mul_comm]
  have h2 : u64 (high <<< 32) = 2 ^ 32 * high := by
    unfold u64
    rw [h1]
    apply Nat.mod_eq_of_lt
    norm_num at hh ⊢
    omega
  rw [h2, ← Nat.mul_add_lt_is_or hl, Nat.mul_comm]

theorem shl32_or_raw (high low : Nat) (hl : low < 2 ^ 32) :
    high <<< 32 ||| low = high * 2 ^ 32 + low := by
  have h1 : high <<< 32 = 2 ^ 32 * high := by rw [Nat.shiftLeft_eq, Nat.mul_comm]
  rw [h1, ← Nat.mul_add_lt_is_or hl, Nat.mul_comm]

theorem u32_lt (n : Nat) : u32 n < 2 ^ 32 := Nat.mod_lt _ (by norm_num)

theorem u16_lt (n : Nat) : u16 n < 2 ^ 16 := Nat.mod_lt _ (by norm_num)

/-- C13: for an even BAR index `bar` in {0, 2, 4}, `pci_get_bar64` returns OK
after reading slot `bar` (offset 0x10 + 4 * bar) and then slot `bar + 1`, and
stores `(high << 32) | low`: a 64-bit value whose bits 0-31 are exactly the low
slot's 32-bit value and whose bits 32-63 are exactly the high slot's. -/
theorem pci_get_bar64_compose (dev : pcie_dev_s σ) (bar : Nat) (s : σ)
    (hbar : bar = 0 ∨ bar = 2 ∨ bar = 4) :
    (pci_get_bar64 dev bar s).ret = OK ∧
    (pci_get_bar64 dev bar s).log =
      [Event.cfg_read dev.bdf (0x10 + 4 * bar) 4, Event.cfg_read dev.bdf (0x10 + 4 * (bar + 1)) 4] ∧
    ∃ low high v,
      low = u32 (dev.bus.ops.pci_cfg_read dev.bdf (0x10 + 4 * bar) 4 s).2.1 ∧
      high = u32 (dev.bus.ops.pci_cfg_read dev.bdf (0x10 + 4 * (bar + 1)) 4
        (dev.bus.ops.pci_cfg_read dev.bdf (0x10 + 4 * bar) 4 s).2.2).2.1 ∧
      (pci_get_bar64 dev bar s).out = some v ∧
      v = (high <<< 32) ||| low ∧ v % 2 ^ 32 = low ∧ v / 2 ^ 32 = high ∧ v < 2 ^ 64 := by
  have hv : ¬ (bar > 4 ∨ bar % 2 ≠ 0) := by omega
  have e1 : PCI_CFG_BAR + bar * 4 = 0x10 + 4 * bar := by unfold PCI_CFG_BAR; omega
  have e2 : PCI_CFG_BAR + bar * 4 + 4 = 0x10 + 4 * (bar + 1) := by unfold PCI_CFG_BAR; omega
  unfold pci_get_bar64
  rw [if_neg hv]
  dsimp only
  rw [e2, e1]
  refine ⟨rfl, rfl, _, _, _, rfl, rfl, rfl, ?_⟩
  have hL := u32_lt (dev.bus.ops.pci_cfg_read dev.bdf (0x10 + 4 * bar) 4 s).2.1
  have hH := u32_lt (dev.bus.ops.pci_cfg_read dev.bdf (0x10 + 4 * (bar + 1)) 4
    (dev.bus.ops.pci_cfg_read dev.bdf (0x10 + 4 * bar) 4 s).2.2).2.1
  generalize u32 (dev.bus.ops.pci_cfg_read dev.bdf (0x10 + 4 * bar) 4 s).2.1 = low at hL ⊢
  generalize u32 (dev.bus.ops.pci_cfg_read dev.bdf (0x10 + 4 * (bar + 1)) 4
    (dev.bus.ops.pci_cfg_read dev.bdf (0x10 + 4 * bar) 4 s).2.2).2.1 = high at hH ⊢
  rw [shl32_or high low hH hL, shl32_or_raw high low hL]
  norm_num at hL hH ⊢
  omega

end get_bar64_claims

/-- C13 on the device whose slot 0 holds 0x00000004 and slot 1 holds 0x00000001:
index 0 yields 0x0000000100000004. -/
theorem pci_get_bar64_compose_witness :
    (pci_get_bar64 ⟨⟨cfg_ops bar64_cfg⟩, 0⟩ 0 ()).ret = OK ∧
    u32 ((cfg_ops bar64_cfg).pci_cfg_read 0 0x10 4 ()).2.1 = 0x00000004 ∧
    u32 ((cfg_ops bar64_cfg).pci_cfg_read 0 0x14 4 ()).2.1 = 0x00000001 ∧
    (pci_get_bar64 ⟨⟨cfg_ops bar64_cfg⟩, 0⟩ 0 ()).out = some 0x0000000100000004 := by
  obtain ⟨hret, _, low, high, v, hl, hh, hout, hv, _⟩ :=
    pci_get_bar64_compose ⟨⟨cfg_ops bar64_cfg⟩, 0⟩ 0 () (Or.inl rfl)
  refine ⟨hret, by decide, by decide, ?_⟩
  rw [hout, hv, hl, hh]
  decide

/-! ## pci_enable_device -/

section enable_claims

variable {σ : Type}

theorem or_and_left (x m n : Nat) : (x ||| (m ||| n)) &&& m = m := by
  apply Nat.eq_of_testBit_eq
  intro i
  simp only [Nat.testBit_and, Nat.testBit_or]
  cases x.testBit i <;> cases m.testBit i <;> cases n.testBit i <;> rfl

theorem or_and_right (x m n : Nat) : (x ||| (m ||| n)) &&& n = n := by
  apply Nat.eq_of_testBit_eq
  intro i
  simp only [Nat.testBit_and, Nat.testBit_or]
  cases x.testBit i <;> cases m.testBit i <;> cases n.testBit i <;> rfl

theorem or_of_and_eq (x m : Nat) (h : x &&& m = m) : x ||| m = x := by
  apply Nat.eq_of_testBit_eq
  intro i
  have hi : (x &&& m).testBit i = m.testBit i := by rw [h]
  simp only [Nat.testBit_and] at hi
  simp only [Nat.testBit_or]
  cases hx : x.testBit i <;> cases hm : m.testBit i <;> simp_all

theorem enable_cmd_eq (old : Nat) (h : old < 2 ^ 16) :
    u16 (old ||| (PCI_CMD_MASTER ||| PCI_CMD_MEM)) = old ||| (PCI_CMD_MASTER ||| PCI_CMD_MEM) :=
  Nat.mod_eq_of_lt (Nat.or_lt_two_pow h (by decide))

/-- C14: `pci_enable_device` returns OK after exactly two calls, one 2-byte read
of the command register (offset 0x04) and one 2-byte write to it of
`old | (PCI_CMD_MASTER | PCI_CMD_MEM)`: in the written value the bus-master and
memory-space-enable bits are set and every other bit equals the bit of the
value read. -/
theorem pci_enable_device_sets_bits (dev : pcie_dev_s σ) (s : σ) :
    ∃ cmd,
      (pci_enable_device dev s).ret = OK ∧
      (pci_enable_device dev s).log =
        [Event.cfg_read dev.bdf 0x04 2, Event.cfg_write dev.bdf 0x04 cmd 2] ∧
      (pci_enable_device dev s).st =
        (dev.bus.ops.pci_cfg_write dev.bdf 0x04 cmd 2
          (dev.bus.ops.pci_cfg_read dev.bdf 0x04 2 s).2.2).2 ∧
      cmd = u16 (dev.bus.ops.pci_cfg_read dev.bdf 0x04 2 s).2.1 |||
        (PCI_CMD_MASTER ||| PCI_CMD_MEM) ∧
      cmd &&& PCI_CMD_MASTER = PCI_CMD_MASTER ∧ cmd &&& PCI_CMD_MEM = PCI_CMD_MEM ∧
      cmd < 2 ^ 16 ∧
      ∀ k, (PCI_CMD_MASTER ||| PCI_CMD_MEM).testBit k = false →
        cmd.testBit k = (u16 (dev.bus.ops.pci_cfg_read dev.bdf 0x04 2 s).2.1).testBit k := by
  have hold := u16_lt (dev.bus.ops.pci_cfg_read dev.bdf 0x04 2 s).2.1
  refine ⟨u16 (dev.bus.ops.pci_cfg_read dev.bdf 0x04 2 s).2.1 |||
    (PCI_CMD_MASTER ||| PCI_CMD_MEM), rfl, ?_, ?_, rfl, or_and_left _ _ _, or_and_right _ _ _,
    Nat.or_lt_two_pow hold (by decide), ?_⟩
  · unfold pci_enable_device
    dsimp only
    rw [show PCI_CFG_COMMAND = 0x04 from rfl, enable_cmd_eq _ hold]
  · unfold pci_enable_device
    dsimp only
    rw [show PCI_CFG_COMMAND = 0x04 from rfl, enable_cmd_eq _ hold]
  · intro k hk
    rw [Nat.testBit_or, hk, Bool.or_false]

end enable_claims

/-! ## Configuration memory -/

theorem cfg_load_congr (f g : Nat → Nat) (n : Nat) : ∀ addr,
    (∀ a, addr ≤ a → a < addr + n → f a = g a) → cfg_load f addr n = cfg_load g addr n := by
  induction n with
  | zero => intro addr _; rfl
  | succ n ih =>
    intro addr h
    simp only [cfg_load]
    rw [h addr (Nat.le_refl _) (by omega), ih (addr + 1) (fun a h1 h2 => h a (by omega) (by omega))]

theorem cfg_load_of_bytes (f : Nat → Nat) (n : Nat) : ∀ addr v,
    (∀ i, i < n → f (addr + i) % 256 = v / 256 ^ i % 256) →
    cfg_load f addr n = v % 256 ^ n := by
  induction n with
  | zero =>
    intro addr v _
    simp [cfg_load, Nat.mod_one]
  | succ n ih =>
    intro addr v h
    have h0 : f addr % 256 = v % 256 := by simpa using h 0 (Nat.succ_pos n)
    have hrec : cfg_load f (addr + 1) n = v / 256 % 256 ^ n := by
      apply ih
      intro i hi
      have := h (i + 1) (by omega)
      rw [Nat.add_assoc, Nat.add_comm 1 i, this, Nat.pow_succ, Nat.mul_comm,
        ← Nat.div_div_eq_div_mul]
    simp only [cfg_load]
    rw [h0, hrec, Nat.pow_succ, Nat.mul_comm (256 ^ n) 256, Nat.mod_mul]

theorem cfg_load_store_same (m : Nat → Nat) (addr v n : Nat) :
    cfg_load (cfg_store m addr v n) addr n = v % 256 ^ n := by
  apply cfg_load_of_bytes
  intro i hi
  have hc : addr ≤ addr + i ∧ addr + i < addr + n := ⟨by omega, by omega⟩
  simp only [cfg_store, if_pos hc, Nat.add_sub_cancel_left, Nat.mod_mod]

theorem cfg_load_store_disjoint (m : Nat → Nat) (addr v n addr' n' : Nat)
    (h : addr' + n' ≤ addr ∨ addr + n ≤ addr') :
    cfg_load (cfg_store m addr v n) addr' n' = cfg_load m addr' n' := by
  apply cfg_load_congr
  intro a h1 h2
  have hc : ¬ (addr ≤ a ∧ a < addr + n) := by omega
  simp only [cfg_store, if_neg hc]

theorem cfg_store_store (m : Nat → Nat) (addr v n : Nat) :
    cfg_store (cfg_store m addr v n) addr v n = cfg_store m addr v n := by
  funext a
  simp only [cfg_store]
  split_ifs <;> rfl

section memory_claims

variable {σ : Type}

/-- C12: over a transport that behaves as memory, for every BAR index `i ≤ 5`
and every 32-bit value `x`, `pci_set_bar` returns OK with a single 4-byte write
of `x` to offset 0x10 + 4 * i, a following `pci_get_bar` of the same index
returns OK and yields `x`, and reading any other of the six slots yields what it
yielded before the write. -/
theorem pci_set_bar_get_bar_roundtrip (dev : pcie_dev_s σ) (view : σ → Nat → Nat → Nat)
    (i x : Nat) (s : σ) (hmem : behaves_as_memory dev.bus.ops view) (hi : i ≤ 5)
    (hx : x < 2 ^ 32) :
    (pci_set_bar dev i x s).ret = OK ∧
    (pci_set_bar dev i x s).log = [Event.cfg_write dev.bdf (0x10 + 4 * i) x 4] ∧
    (pci_get_bar dev i (pci_set_bar dev i x s).st).ret = OK ∧
    (pci_get_bar dev i (pci_set_bar dev i x s).st).out = some x ∧
    ∀ j, j ≤ 5 → j ≠ i →
      (pci_get_bar dev j (pci_set_bar dev i x s).st).out = (pci_get_bar dev j s).out := by
  have hi2 : ¬ i > 5 := by omega
  have hux : u32 x = x := Nat.mod_eq_of_lt hx
  have e1 : PCI_CFG_BAR + i * 4 = 0x10 + 4 * i := by unfold PCI_CFG_BAR; omega
  have hst : view (pci_set_bar dev i x s).st =
      fun b => if b = dev.bdf then cfg_store (view s dev.bdf) (0x10 + 4 * i) x 4
        else view s b := by
    unfold pci_set_bar
    rw [if_neg hi2]
    dsimp only
    rw [hmem.2, hux, e1]
  have hget : ∀ j, j ≤ 5 → ∀ s', (pci_get_bar dev j s').out =
      some (u32 (cfg_load (view s' dev.bdf) (0x10 + 4 * j) 4)) := by
    intro j hj s'
    have hj2 : ¬ j > 5 := by omega
    have e2 : PCI_CFG_BAR + j * 4 = 0x10 + 4 * j := by unfold PCI_CFG_BAR; omega
    unfold pci_get_bar
    rw [if_neg hj2]
    dsimp only
    rw [(hmem.1 _ _ _ _).1, e2]
  refine ⟨?_, ?_, ?_, ?_, ?_⟩
  · unfold pci_set_bar
    rw [if_neg hi2]
  · unfold pci_set_bar
    rw [if_neg hi2]
    dsimp only
    rw [hux, e1]
  · unfold pci_get_bar
    rw [if_neg hi2]
  · rw [hget i hi, hst]
    dsimp only
    rw [if_pos rfl, cfg_load_store_same]
    have h256 : x % 256 ^ 4 = x := Nat.mod_eq_of_lt (by norm_num at hx ⊢; exact hx)
    rw [h256, hux]
  · intro j hj hne
    rw [hget j hj, hget j hj, hst]
    dsimp only
    rw [if_pos rfl, cfg_load_store_disjoint]
    omega

/-- C12 on the memory transport: 0xdeadbeef written to BAR 2 of device 5 of an
all-zero configuration memory and read back. -/
theorem pci_set_bar_get_bar_roundtrip_witness :
    (pci_set_bar ⟨⟨mem_ops⟩, 5⟩ 2 0xdeadbeef (fun _ _ => 0)).ret = OK ∧
    (pci_set_bar ⟨⟨mem_ops⟩, 5⟩ 2 0xdeadbeef (fun _ _ => 0)).log =
      [Event.cfg_write 5 (0x10 + 4 * 2) 0xdeadbeef 4] ∧
    (pci_get_bar ⟨⟨mem_ops⟩, 5⟩ 2
      (pci_set_bar ⟨⟨mem_ops⟩, 5⟩ 2 0xdeadbeef (fun _ _ => 0)).st).ret = OK ∧
    (pci_get_bar ⟨⟨mem_ops⟩, 5⟩ 2
      (pci_set_bar ⟨⟨mem_ops⟩, 5⟩ 2 0xdeadbeef (fun _ _ => 0)).st).out = some 0xdeadbeef ∧
    ∀ j, j ≤ 5 → j ≠ 2 →
      (pci_get_bar ⟨⟨mem_ops⟩, 5⟩ j
        (pci_set_bar ⟨⟨mem_ops⟩, 5⟩ 2 0xdeadbeef (fun _ _ => 0)).st).out =
      (pci_get_bar ⟨⟨mem_ops⟩, 5⟩ j (fun _ _ => 0)).out :=
  pci_set_bar_get_bar_roundtrip ⟨⟨mem_ops⟩, 5⟩ id 2 0xdeadbeef (fun _ _ => 0)
    ⟨fun _ _ _ _ => ⟨rfl, rfl⟩, fun _ _ _ _ _ => rfl⟩ (by decide) (by decide)

end memory_claims

section enable_idempotent

variable {σ : Type}

theorem pci_enable_device_view (dev : pcie_dev_s σ) (view : σ → Nat → Nat → Nat) (s : σ)
    (hmem : behaves_as_memory dev.bus.ops view) :
    view (pci_enable_device dev s).st =
      fun b => if b = dev.bdf then
        cfg_store (view s dev.bdf) 0x04
          (u16 (cfg_load (view s dev.bdf) 0x04 2) ||| (PCI_CMD_MASTER ||| PCI_CMD_MEM)) 2
        else view s b := by
  unfold pci_enable_device
  dsimp only
  rw [hmem.2, (hmem.1 _ _ _ _).2, (hmem.1 _ _ _ _).1, enable_cmd_eq _ (u16_lt _)]
  rfl

/-- C15: over a transport that behaves as memory, a second `pci_enable_device`
leaves the configuration memory exactly as the first one left it; and whenever
the command register read already has the bus-master and memory-space-enable
bits set, the value written back is the value read. -/
theorem pci_enable_device_idempotent (dev : pcie_dev_s σ) (view : σ → Nat → Nat → Nat) (s : σ)
    (hmem : behaves_as_memory dev.bus.ops view) :
    view (pci_enable_device dev (pci_enable_device dev s).st).st =
      view (pci_enable_device dev s).st ∧
    ∀ s', u16 (dev.bus.ops.pci_cfg_read dev.bdf 0x04 2 s').2.1 &&&
        (PCI_CMD_MASTER ||| PCI_CMD_MEM) = PCI_CMD_MASTER ||| PCI_CMD_MEM →
      (pci_enable_device dev s').log =
        [Event.cfg_read dev.bdf 0x04 2,
          Event.cfg_write dev.bdf 0x04 (u16 (dev.bus.ops.pci_cfg_read dev.bdf 0x04 2 s').2.1) 2] := by
  constructor
  · rw [pci_enable_device_view dev view _ hmem, pci_enable_device_view dev view s hmem]
    dsimp only
    rw [if_pos rfl]
    generalize view s dev.bdf = m
    have hlt : u16 (cfg_load m 0x04 2) ||| (PCI_CMD_MASTER ||| PCI_CMD_MEM) < 2 ^ 16 :=
      Nat.or_lt_two_pow (u16_lt _) (by decide)
    generalize hc : u16 (cfg_load m 0x04 2) ||| (PCI_CMD_MASTER ||| PCI_CMD_MEM) = cmd at hlt
    have hand : cmd &&& (PCI_CMD_MASTER ||| PCI_CMD_MEM) = PCI_CMD_MASTER ||| PCI_CMD_MEM := by
      rw [← hc]
      apply Nat.eq_of_testBit_eq
      intro i
      simp only [Nat.testBit_and, Nat.testBit_or]
      cases (u16 (cfg_load m 0x04 2)).testBit i <;> cases PCI_CMD_MASTER.testBit i <;>
        cases PCI_CMD_MEM.testBit i <;> rfl
    have hload : cfg_load (cfg_store m 0x04 cmd 2) 0x04 2 = cmd := by
      rw [cfg_load_store_same]
      exact Nat.mod_eq_of_lt (by norm_num at hlt ⊢; exact hlt)
    have hu : u16 cmd = cmd := Nat.mod_eq_of_lt hlt
    rw [hload, hu, or_of_and_eq cmd _ hand, cfg_store_store]
    funext b
    by_cases hb : b = dev.bdf
    · rw [if_pos hb, if_pos hb]
    · rw [if_neg hb, if_neg hb]
  · intro s' h
    unfold pci_enable_device
    dsimp only
    rw [show PCI_CFG_COMMAND = 0x04 from rfl, enable_cmd_eq _ (u16_lt _), or_of_and_eq _ _ h]

/-- C15 on the memory transport, for device 5 of an all-zero configuration
memory. -/
theorem pci_enable_device_idempotent_witness :
    id (pci_enable_device ⟨⟨mem_ops⟩, 5⟩
        (pci_enable_device ⟨⟨mem_ops⟩, 5⟩ (fun _ _ => 0)).st).st =
      id (pci_enable_device ⟨⟨mem_ops⟩, 5⟩ (fun _ _ => 0)).st ∧
    ∀ s', u16 (mem_ops.pci_cfg_read 5 0x04 2 s').2.1 &&&
        (PCI_CMD_MASTER ||| PCI_CMD_MEM) = PCI_CMD_MASTER ||| PCI_CMD_MEM →
      (pci_enable_device ⟨⟨mem_ops⟩, 5⟩ s').log =
        [Event.cfg_read 5 0x04 2,
          Event.cfg_write 5 0x04 (u16 (mem_ops.pci_cfg_read 5 0x04 2 s').2.1) 2] :=
  pci_enable_device_idempotent ⟨⟨mem_ops⟩, 5⟩ id (fun _ _ => 0)
    ⟨fun _ _ _ _ => ⟨rfl, rfl⟩, fun _ _ _ _ _ => rfl⟩

end enable_idempotent

/-! ## Mapping: type validation, absent operation, delegation -/

section mapper_claims

variable {σ : Type}

/-- C16: for a valid index (`bar` in {0, 2, 4}), `pci_map_bar64` returns -EINVAL
after the single read of the low slot, without calling the mapping operation
and without writing the output, whenever the low slot's value lacks the 64-bit
type bit or has the I/O-space bit set; for a valid index (`bar ≤ 5`),
`pci_map_bar` does the same whenever the slot's value has the I/O-space bit
set. -/
theorem mappers_reject_wrong_type (dev : pcie_dev_s σ) (bar length : Nat) (ret : Bool) (s : σ) :
    ((bar = 0 ∨ bar = 2 ∨ bar = 4) →
      (u32 (dev.bus.ops.pci_cfg_read dev.bdf (PCI_CFG_BAR + bar * 4) 4 s).2.1 &&& PCI_BAR_64BIT
          ≠ PCI_BAR_64BIT ∨
        u32 (dev.bus.ops.pci_cfg_read dev.bdf (PCI_CFG_BAR + bar * 4) 4 s).2.1 &&& PCI_BAR_IO
          = PCI_BAR_IO) →
      (pci_map_bar64 dev bar length ret s).ret = -EINVAL ∧
      (pci_map_bar64 dev bar length ret s).log =
        [Event.cfg_read dev.bdf (PCI_CFG_BAR + bar * 4) 4] ∧
      (pci_map_bar64 dev bar length ret s).out = none) ∧
    (bar ≤ 5 →
      u32 (dev.bus.ops.pci_cfg_read dev.bdf (PCI_CFG_BAR + bar * 4) 4 s).2.1 &&& PCI_BAR_IO
        = PCI_BAR_IO →
      (pci_map_bar dev bar length ret s).ret = -EINVAL ∧
      (pci_map_bar dev bar length ret s).log =
        [Event.cfg_read dev.bdf (PCI_CFG_BAR + bar * 4) 4] ∧
      (pci_map_bar dev bar length ret s).out = none) := by
  constructor
  · intro hbar htype
    have hv : ¬ (bar > 4 ∨ bar % 2 ≠ 0) := by omega
    unfold pci_map_bar64
    rw [if_neg hv]
    dsimp only
    rw [if_pos htype]
    exact ⟨rfl, rfl, rfl⟩
  · intro hbar hio
    have hv : ¬ bar > 5 := by omega
    unfold pci_map_bar
    rw [if_neg hv]
    dsimp only
    rw [if_pos (Or.inr hio)]
    exact ⟨rfl, rfl, rfl⟩

/-- C16 on a device whose every slot reads 0x1 (an I/O-space BAR), with both
mapping operations present. -/
theorem mappers_reject_wrong_type_witness :
    ((pci_map_bar64 ⟨⟨const_ops 0 1⟩, 0⟩ 2 4096 true ()).ret = -EINVAL ∧
      (pci_map_bar64 ⟨⟨const_ops 0 1⟩, 0⟩ 2 4096 true ()).log =
        [Event.cfg_read 0 (PCI_CFG_BAR + 2 * 4) 4] ∧
      (pci_map_bar64 ⟨⟨const_ops 0 1⟩, 0⟩ 2 4096 true ()).out = none) ∧
    ((pci_map_bar ⟨⟨const_ops 0 1⟩, 0⟩ 3 4096 true ()).ret = -EINVAL ∧
      (pci_map_bar ⟨⟨const_ops 0 1⟩, 0⟩ 3 4096 true ()).log =
        [Event.cfg_read 0 (PCI_CFG_BAR + 3 * 4) 4] ∧
      (pci_map_bar ⟨⟨const_ops 0 1⟩, 0⟩ 3 4096 true ()).out = none) :=
  ⟨(mappers_reject_wrong_type ⟨⟨const_ops 0 1⟩, 0⟩ 2 4096 true ()).1 (by decide) (by decide),
    (mappers_reject_wrong_type ⟨⟨const_ops 0 1⟩, 0⟩ 3 4096 true ()).2 (by decide) (by decide)⟩

/-- C17: when the transport has no `pci_map_bar` operation, `pci_map_bar`
returns -EINVAL (a negative status) for every input, calls no mapping operation
and leaves the output location unwritten; likewise `pci_map_bar64` when the
transport has no `pci_map_bar64` operation. -/
theorem mappers_without_operation (dev : pcie_dev_s σ) (bar length : Nat) (ret : Bool) (s : σ) :
    (dev.bus.ops.pci_map_bar = none →
      (pci_map_bar dev bar length ret s).ret = -EINVAL ∧
      (∀ e ∈ (pci_map_bar dev bar length ret s).log, e.is_map = false) ∧
      (pci_map_bar dev bar length ret s).out = none) ∧
    (dev.bus.ops.pci_map_bar64 = none →
      (pci_map_bar64 dev bar length ret s).ret = -EINVAL ∧
      (∀ e ∈ (pci_map_bar64 dev bar length ret s).log, e.is_map = false) ∧
      (pci_map_bar64 dev bar length ret s).out = none) ∧
    -EINVAL < 0 := by
  refine ⟨?_, ?_, by decide⟩
  · intro h
    unfold pci_map_bar
    rw [h]
    dsimp only
    split_ifs <;> simp [Event.is_map]
  · intro h
    unfold pci_map_bar64
    rw [h]
    dsimp only
    split_ifs <;> simp [Event.is_map]

/-- C17 on a transport without mapping operations, for a slot that would
otherwise be mapped (a 32-bit memory BAR, then a 64-bit one). -/
theorem mappers_without_operation_witness :
    ((pci_map_bar ⟨⟨cfg_ops (fun _ => 0)⟩, 0⟩ 0 4096 true ()).ret = -EINVAL ∧
      (∀ e ∈ (pci_map_bar ⟨⟨cfg_ops (fun _ => 0)⟩, 0⟩ 0 4096 true ()).log, e.is_map = false) ∧
      (pci_map_bar ⟨⟨cfg_ops (fun _ => 0)⟩, 0⟩ 0 4096 true ()).out = none) ∧
    ((pci_map_bar64 ⟨⟨cfg_ops bar64_cfg⟩, 0⟩ 0 4096 true ()).ret = -EINVAL ∧
      (∀ e ∈ (pci_map_bar64 ⟨⟨cfg_ops bar64_cfg⟩, 0⟩ 0 4096 true ()).log, e.is_map = false) ∧
      (pci_map_bar64 ⟨⟨cfg_ops bar64_cfg⟩, 0⟩ 0 4096 true ()).out = none) :=
  ⟨(mappers_without_operation ⟨⟨cfg_ops (fun _ => 0)⟩, 0⟩ 0 4096 true ()).1 rfl,
    (mappers_without_operation ⟨⟨cfg_ops bar64_cfg⟩, 0⟩ 0 4096 true ()).2.1 rfl⟩

/-- C20: when `bar ≤ 5`, the slot value `v` has neither the 64-bit bit nor the
I/O bit set and the transport has a `pci_map_bar` operation, `pci_map_bar`
issues the read of the slot and then exactly one call of that operation, with
`(dev, v, length)`, returns OK and stores `v` when the output location is
non-null.  When `bar` is in {0, 2, 4}, the low slot value has the 64-bit bit set
and the I/O bit clear and the transport has a `pci_map_bar64` operation,
`pci_map_bar64` issues the reads of the two slots and then exactly one call of
that operation, with `(dev, (high << 32) | low, length)`, type bits included,
returns OK and stores that value when the output location is non-null.  No
configuration-space write is issued. -/
theorem mappers_delegate (dev : pcie_dev_s σ) (bar length : Nat) (ret : Bool) (s : σ) :
    (bar ≤ 5 →
      u32 (dev.bus.ops.pci_cfg_read dev.bdf (PCI_CFG_BAR + bar * 4) 4 s).2.1 &&& PCI_BAR_64BIT
        ≠ PCI_BAR_64BIT →
      u32 (dev.bus.ops.pci_cfg_read dev.bdf (PCI_CFG_BAR + bar * 4) 4 s).2.1 &&& PCI_BAR_IO
        ≠ PCI_BAR_IO →
      ∀ map, dev.bus.ops.pci_map_bar = some map →
        (pci_map_bar dev bar length ret s).ret = OK ∧
        (pci_map_bar dev bar length ret s).log =
          [Event.cfg_read dev.bdf (PCI_CFG_BAR + bar * 4) 4,
            Event.map_bar dev.bdf
              (u32 (dev.bus.ops.pci_cfg_read dev.bdf (PCI_CFG_BAR + bar * 4) 4 s).2.1) length] ∧
        (pci_map_bar dev bar length ret s).out =
          (if ret then
            some (u32 (dev.bus.ops.pci_cfg_read dev.bdf (PCI_CFG_BAR + bar * 4) 4 s).2.1)
          else none) ∧
        (pci_map_bar dev bar length ret s).st =
          (map dev.bdf (u32 (dev.bus.ops.pci_cfg_read dev.bdf (PCI_CFG_BAR + bar * 4) 4 s).2.1)
            length (dev.bus.ops.pci_cfg_read dev.bdf (PCI_CFG_BAR + bar * 4) 4 s).2.2).2) ∧
    ((bar = 0 ∨ bar = 2 ∨ bar = 4) →
      u32 (dev.bus.ops.pci_cfg_read dev.bdf (PCI_CFG_BAR + bar * 4) 4 s).2.1 &&& PCI_BAR_64BIT
        = PCI_BAR_64BIT →
      u32 (dev.bus.ops.pci_cfg_read dev.bdf (PCI_CFG_BAR + bar * 4) 4 s).2.1 &&& PCI_BAR_IO
        ≠ PCI_BAR_IO →
      ∀ map, dev.bus.ops.pci_map_bar64 = some map →
      ∃ low high,
        low = u32 (dev.bus.ops.pci_cfg_read dev.bdf (PCI_CFG_BAR + bar * 4) 4 s).2.1 ∧
        high = u32 (dev.bus.ops.pci_cfg_read dev.bdf (PCI_CFG_BAR + bar * 4 + 4) 4
          (dev.bus.ops.pci_cfg_read dev.bdf (PCI_CFG_BAR + bar * 4) 4 s).2.2).2.1 ∧
        (pci_map_bar64 dev bar length ret s).ret = OK ∧
        (pci_map_bar64 dev bar length ret s).log =
          [Event.cfg_read dev.bdf (PCI_CFG_BAR + bar * 4) 4,
            Event.cfg_read dev.bdf (PCI_CFG_BAR + bar * 4 + 4) 4,
            Event.map_bar64 dev.bdf ((high <<< 32) ||| low) length] ∧
        (pci_map_bar64 dev bar length ret s).out =
          (if ret then some ((high <<< 32) ||| low) else none) ∧
        (pci_map_bar64 dev bar length ret s).st =
          (map dev.bdf ((high <<< 32) ||| low) length
            (dev.bus.ops.pci_cfg_read dev.bdf (PCI_CFG_BAR + bar * 4 + 4) 4
              (dev.bus.ops.pci_cfg_read dev.bdf (PCI_CFG_BAR + bar * 4) 4 s).2.2).2.2).2) := by
  constructor
  · intro hbar h64 hio map hmap
    have hv : ¬ bar > 5 := by omega
    unfold pci_map_bar
    rw [if_neg hv]
    dsimp only
    rw [if_neg (by rintro (⟨_, h⟩ | h); exact h64 h; exact hio h), hmap]
    exact ⟨rfl, rfl, rfl, rfl⟩
  · intro hbar h64 hio map hmap
    have hv : ¬ (bar > 4 ∨ bar % 2 ≠ 0) := by omega
    refine ⟨_, _, rfl, rfl, ?_⟩
    unfold pci_map_bar64
    rw [if_neg hv]
    dsimp only
    rw [if_neg (by rintro (h | h); exact h h64; exact hio h), hmap]
    dsimp only
    rw [shl32_or _ _ (u32_lt _) (u32_lt _), ← shl32_or_raw _ _ (u32_lt _)]
    exact ⟨rfl, rfl, rfl, rfl⟩

/-- C20 on concrete devices: a 32-bit memory BAR holding 0xfebc0000 at index 3,
and a 64-bit BAR whose two slots both read 0x4 at index 2. -/
theorem mappers_delegate_witness :
    ((pci_map_bar ⟨⟨const_ops 0 0xfebc0000⟩, 9⟩ 3 8192 true ()).ret = OK ∧
      (pci_map_bar ⟨⟨const_ops 0 0xfebc0000⟩, 9⟩ 3 8192 true ()).log =
        [Event.cfg_read 9 0x1c 4, Event.map_bar 9 0xfebc0000 8192] ∧
      (pci_map_bar ⟨⟨const_ops 0 0xfebc0000⟩, 9⟩ 3 8192 true ()).out = some 0xfebc0000) ∧
    ((pci_map_bar64 ⟨⟨const_ops 0 4⟩, 9⟩ 2 8192 true ()).ret = OK ∧
      (pci_map_bar64 ⟨⟨const_ops 0 4⟩, 9⟩ 2 8192 true ()).log =
        [Event.cfg_read 9 0x18 4, Event.cfg_read 9 0x1c 4,
          Event.map_bar64 9 0x0000000400000004 8192] ∧
      (pci_map_bar64 ⟨⟨const_ops 0 4⟩, 9⟩ 2 8192 true ()).out = some 0x0000000400000004) := by
  obtain ⟨h1, h2, h3, _⟩ := (mappers_delegate ⟨⟨const_ops 0 0xfebc0000⟩, 9⟩ 3 8192 true ()).1
    (by decide) (by decide) (by decide) _ rfl
  obtain ⟨low, high, hl, hh, h4, h5, h6, _⟩ :=
    (mappers_delegate ⟨⟨const_ops 0 4⟩, 9⟩ 2 8192 true ()).2
      (by decide) (by decide) (by decide) _ rfl
  have hlow : low = 4 := by rw [hl]; decide
  have hhigh : high = 4 := by rw [hh]; decide
  subst hlow hhigh
  exact ⟨⟨h1, h2, h3⟩, h4, h5, h6⟩

end mapper_claims

/-! ## BDF decomposition -/

theorem bdf_pack_spec_roundtrip (b : Nat) : bdf_pack (bdf_fields_spec b) = b := by
  have h1 : b &&& 0x7 = b % 8 := Nat.and_pow_two_sub_one_eq_mod b 3
  have h2 : (b >>> 3) &&& 0x1f = b / 8 % 32 := by
    rw [Nat.shiftRight_eq_div_pow]
    exact Nat.and_pow_two_sub_one_eq_mod _ 5
  have h3 : b >>> 8 = b / 256 := Nat.shiftRight_eq_div_pow b 8
  unfold bdf_pack bdf_fields_spec
  dsimp only
  rw [h1, h2, h3, Nat.shiftLeft_eq, Nat.shiftLeft_eq]
  have hlt : b / 8 % 32 * 2 ^ 3 < 2 ^ 8 := by
    norm_num
    omega
  have e1 : b / 256 * 2 ^ 8 ||| b / 8 % 32 * 2 ^ 3 = 2 ^ 3 * (32 * (b / 256) + b / 8 % 32) := by
    rw [Nat.mul_comm (b / 256) (2 ^ 8), ← Nat.mul_add_lt_is_or hlt]
    norm_num
    omega
  have hlt2 : b % 8 < 2 ^ 3 := Nat.mod_lt _ (by norm_num)
  rw [e1, ← Nat.mul_add_lt_is_or hlt2]
  norm_num
  omega

/-- C18: the decomposition the code uses masks the function with 0x3, not 0x7:
BDF 4 (bus 0, device 0, function 4) is decomposed into (0, 0, 0), which the
canonical packing re-encodes as 0, not 4.  The decomposition the claim
specifies, with mask 0x7, does reproduce every BDF below 2^16, with bus in
[0, 255], device in [0, 31] and function in [0, 7]. -/
theorem bdf_fields_function_mask :
    bdf_fields 4 = (0, 0, 0) ∧ bdf_pack (bdf_fields 4) = 0 ∧ bdf_pack (bdf_fields 4) ≠ 4 ∧
    bdf_fields 4 ≠ bdf_fields_spec 4 ∧
    ∀ b, b < 2 ^ 16 →
      bdf_pack (bdf_fields_spec b) = b ∧ (bdf_fields_spec b).1 ≤ 255 ∧
      (bdf_fields_spec b).2.1 ≤ 31 ∧ (bdf_fields_spec b).2.2 ≤ 7 := by
  refine ⟨by decide, by decide, by decide, by decide, ?_⟩
  intro b hb
  refine ⟨bdf_pack_spec_roundtrip b, ?_, ?_, ?_⟩
  · show b >>> 8 ≤ 255
    rw [Nat.shiftRight_eq_div_pow]
    norm_num at hb ⊢
    omega
  · show (b >>> 3) &&& 0x1f ≤ 31
    have := Nat.and_lt_two_pow (b >>> 3) (show 0x1f < 2 ^ 5 by norm_num)
    norm_num at this
    omega
  · show b &&& 0x7 ≤ 7
    have := Nat.and_lt_two_pow b (show 0x7 < 2 ^ 3 by norm_num)
    norm_num at this
    omega

/-! ## Enumeration and probe statuses -/

section probe_status_claims

variable {σ : Type}

theorem pci_enumerate_types_same (bus : pcie_bus_s σ) (bdf vid id rev : Nat)
    (ts1 ts2 : List (pcie_dev_type_s σ)) (h : List.Forall₂ same_probe_effects ts1 ts2) :
    ∀ i s, pci_enumerate_types bus bdf vid id rev ts1 i s =
      pci_enumerate_types bus bdf vid id rev ts2 i s := by
  induction h with
  | nil => intro i s; rfl
  | @cons t1 t2 l1 l2 ht _ ih =>
    intro i s
    obtain ⟨hv, hd, hc, hp⟩ := ht
    unfold pci_enumerate_types
    rw [hv, hd, hc, ih (i + 1) s]
    cases h1 : t1.probe with
    | none =>
      cases h2 : t2.probe with
      | none => rfl
      | some q =>
        rw [h1, h2] at hp
        exact False.elim hp
    | some p =>
      cases h2 : t2.probe with
      | none =>
        rw [h1, h2] at hp
        exact False.elim hp
      | some q =>
        rw [h1, h2] at hp
        have hpq : ∀ bus b s, (p bus b s).2 = (q bus b s).2 := hp
        simp only [hpq]

theorem pci_enumerate_scan_same (bus : pcie_bus_s σ)
    (ts1 ts2 : List (pcie_dev_type_s σ)) (h : List.Forall₂ same_probe_effects ts1 ts2)
    (l : List Nat) : ∀ s, pci_enumerate_scan bus ts1 l s = pci_enumerate_scan bus ts2 l s := by
  induction l with
  | nil => intro s; rfl
  | cons b l ih =>
    intro s
    have hb : pci_enumerate_body bus ts1 b s = pci_enumerate_body bus ts2 b s := by
      unfold pci_enumerate_body
      simp only [pci_enumerate_types_same bus _ _ _ _ ts1 ts2 h]
    simp only [pci_enumerate_scan, hb, ih]

theorem pci_enumerate_scan_vendor_reads (bus : pcie_bus_s σ) (types : List (pcie_dev_type_s σ))
    (l : List Nat) : ∀ s,
    (pci_enumerate_scan bus types l s).1.filter (Event.is_read_of PCI_CFG_VENDOR_ID) =
      l.map (fun b => Event.cfg_read b PCI_CFG_VENDOR_ID 2) := by
  induction l with
  | nil => intro s; rfl
  | cons b l ih =>
    intro s
    simp only [pci_enumerate_scan, List.filter_append, ih, List.map_cons]
    rw [pci_enumerate_body_eq]
    dsimp only
    have hd : (pci_enumerate_dispatch bus types b s).1.filter
        (Event.is_read_of PCI_CFG_VENDOR_ID) = [] := by
      rw [List.filter_eq_nil_iff]
      intro e he
      obtain ⟨i, rfl⟩ := pci_enumerate_dispatch_target bus types b s e he
      simp [Event.is_read_of]
    rw [List.filter_append, hd]
    simp [List.filter, Event.is_read_of, PCI_CFG_VENDOR_ID, PCI_CFG_DEVICE_ID, PCI_CFG_REVERSION]

/-- C19: for a non-null bus and registry `pci_enumerate` returns OK and reads
the vendor ID of every BDF of `0 .. CONFIG_PCIE_MAX_BDF - 1` once, in ascending
order; and over two registries that differ only in the statuses their probes
return, it issues the same calls in the same order (so the same sequence of
probe invocations) and ends in the same state: what a probe returns neither
stops the scan nor changes the dispatch of a later BDF. -/
theorem pci_enumerate_ignores_probe_status (CONFIG_PCIE_MAX_BDF : Nat) (bus : pcie_bus_s σ)
    (types1 types2 : List (pcie_dev_type_s σ)) (s : σ)
    (h : List.Forall₂ same_probe_effects types1 types2) :
    (pci_enumerate CONFIG_PCIE_MAX_BDF (some bus) (some types1) s).ret = OK ∧
    (pci_enumerate CONFIG_PCIE_MAX_BDF (some bus) (some types1) s).log.filter
      (Event.is_read_of PCI_CFG_VENDOR_ID) =
      (List.range CONFIG_PCIE_MAX_BDF).map (fun b => Event.cfg_read b PCI_CFG_VENDOR_ID 2) ∧
    (pci_enumerate CONFIG_PCIE_MAX_BDF (some bus) (some types1) s).log =
      (pci_enumerate CONFIG_PCIE_MAX_BDF (some bus) (some types2) s).log ∧
    (pci_enumerate CONFIG_PCIE_MAX_BDF (some bus) (some types1) s).log.filter Event.is_probe =
      (pci_enumerate CONFIG_PCIE_MAX_BDF (some bus) (some types2) s).log.filter Event.is_probe ∧
    (pci_enumerate CONFIG_PCIE_MAX_BDF (some bus) (some types1) s).st =
      (pci_enumerate CONFIG_PCIE_MAX_BDF (some bus) (some types2) s).st ∧
    (pci_enumerate CONFIG_PCIE_MAX_BDF (some bus) (some types2) s).ret = OK := by
  have hlog : (pci_enumerate CONFIG_PCIE_MAX_BDF (some bus) (some types1) s).log =
      (pci_enumerate CONFIG_PCIE_MAX_BDF (some bus) (some types2) s).log := by
    rw [(pci_enumerate_log_eq _ bus types1 s).1, (pci_enumerate_log_eq _ bus types2 s).1,
      pci_enumerate_scan_same bus types1 types2 h]
  refine ⟨rfl, ?_, hlog, by rw [hlog], ?_, rfl⟩
  · rw [(pci_enumerate_log_eq _ bus types1 s).1]
    exact pci_enumerate_scan_vendor_reads bus types1 _ s
  · rw [(pci_enumerate_log_eq _ bus types1 s).2, (pci_enumerate_log_eq _ bus types2 s).2,
      pci_enumerate_scan_same bus types1 types2 h]

/-- C19 on a concrete bus: the device at BDF 1 of 4 is claimed by a probe that
fails in one registry and succeeds in the other; BDFs 2 and 3 are visited all
the same. -/
theorem pci_enumerate_ignores_probe_status_witness :
    (pci_enumerate 4 (some ⟨one_device_ops 1 0x8086 0x100e⟩)
      (some [⟨"e1000", 0x8086, 0x100e, PCI_ID_ANY, some failing_probe⟩]) ()).ret = OK ∧
    (pci_enumerate 4 (some ⟨one_device_ops 1 0x8086 0x100e⟩)
      (some [⟨"e1000", 0x8086, 0x100e, PCI_ID_ANY, some failing_probe⟩]) ()).log.filter
        (Event.is_read_of PCI_CFG_VENDOR_ID) =
      [Event.cfg_read 0 0 2, Event.cfg_read 1 0 2, Event.cfg_read 2 0 2, Event.cfg_read 3 0 2] ∧
    (pci_enumerate 4 (some ⟨one_device_ops 1 0x8086 0x100e⟩)
      (some [⟨"e1000", 0x8086, 0x100e, PCI_ID_ANY, some failing_probe⟩]) ()).log.filter
        Event.is_probe =
      (pci_enumerate 4 (some ⟨one_device_ops 1 0x8086 0x100e⟩)
        (some [⟨"e1000", 0x8086, 0x100e, PCI_ID_ANY, some accepting_probe⟩]) ()).log.filter
          Event.is_probe := by
  obtain ⟨h1, h2, _, h4, _⟩ := pci_enumerate_ignores_probe_status 4
    ⟨one_device_ops 1 0x8086 0x100e⟩
    [⟨"e1000", 0x8086, 0x100e, PCI_ID_ANY, some failing_probe⟩]
    [⟨"e1000", 0x8086, 0x100e, PCI_ID_ANY, some accepting_probe⟩] ()
    (List.Forall₂.cons ⟨rfl, rfl, rfl, fun _ _ _ => rfl⟩ List.Forall₂.nil)
  exact ⟨h1, h2, h4⟩

end probe_status_claims

/-! ## pci_set_bar64 over configuration memory -/

section set_bar64_claims

variable {σ : Type}

theorem split64 (x : Nat) (hx : x < 2 ^ 64) :
    u32 (u64 x) = x % 2 ^ 32 ∧ u32 (u64 x >>> 32) = x / 2 ^ 32 ∧ x / 2 ^ 32 < 2 ^ 32 := by
  have hu : u64 x = x := Nat.mod_eq_of_lt hx
  have hd : x / 2 ^ 32 < 2 ^ 32 := by
    norm_num at hx ⊢
    omega
  refine ⟨by rw [hu]; rfl, ?_, hd⟩
  rw [hu, Nat.shiftRight_eq_div_pow]
  exact Nat.mod_eq_of_lt hd

theorem pci_set_bar_view (dev : pcie_dev_s σ) (view : σ → Nat → Nat → Nat)
    (hmem : behaves_as_memory dev.bus.ops view) (i v : Nat) (s : σ) (hi : i ≤ 5)
    (hv : v < 2 ^ 32) :
    view (pci_set_bar dev i v s).st =
      fun b => if b = dev.bdf then cfg_store (view s dev.bdf) (0x10 + 4 * i) v 4
        else view s b := by
  have hi2 : ¬ i > 5 := by omega
  have e1 : PCI_CFG_BAR + i * 4 = 0x10 + 4 * i := by unfold PCI_CFG_BAR; omega
  unfold pci_set_bar
  rw [if_neg hi2]
  dsimp only
  rw [hmem.2, show u32 v = v from Nat.mod_eq_of_lt hv, e1]

theorem pci_get_bar_out (dev : pcie_dev_s σ) (view : σ → Nat → Nat → Nat)
    (hmem : behaves_as_memory dev.bus.ops view) (j : Nat) (s : σ) (hj : j ≤ 5) :
    (pci_get_bar dev j s).out = some (u32 (cfg_load (view s dev.bdf) (0x10 + 4 * j) 4)) := by
  have hj2 : ¬ j > 5 := by omega
  have e2 : PCI_CFG_BAR + j * 4 = 0x10 + 4 * j := by unfold PCI_CFG_BAR; omega
  unfold pci_get_bar
  rw [if_neg hj2]
  dsimp only
  rw [(hmem.1 _ _ _ _).1, e2]

/-- C21: over a transport that behaves as memory, for every BAR index `i` in
{0, 2, 4} and every 64-bit value `x`, `pci_set_bar64` returns OK after two
4-byte writes, the low 32 bits of `x` to slot `i` and `x >> 32` to slot `i + 1`;
a following `pci_get_bar64` of the same index returns OK and yields `x`; each of
the other four slots reads as before; and the configuration memory it leaves is
the one left by `pci_set_bar` of the low half to slot `i` followed by
`pci_set_bar` of the high half to slot `i + 1`. -/
theorem pci_set_bar64_get_bar64_roundtrip (dev : pcie_dev_s σ) (view : σ → Nat → Nat → Nat)
    (i x : Nat) (s : σ) (hmem : behaves_as_memory dev.bus.ops view)
    (hi : i = 0 ∨ i = 2 ∨ i = 4) (hx : x < 2 ^ 64) :
    (pci_set_bar64 dev i x s).ret = OK ∧
    (pci_set_bar64 dev i x s).log =
      [Event.cfg_write dev.bdf (0x10 + 4 * i) (x % 2 ^ 32) 4,
        Event.cfg_write dev.bdf (0x10 + 4 * (i + 1)) (x / 2 ^ 32) 4] ∧
    (pci_get_bar64 dev i (pci_set_bar64 dev i x s).st).ret = OK ∧
    (pci_get_bar64 dev i (pci_set_bar64 dev i x s).st).out = some x ∧
    (∀ j, j ≤ 5 → j ≠ i → j ≠ i + 1 →
      (pci_get_bar dev j (pci_set_bar64 dev i x s).st).out = (pci_get_bar dev j s).out) ∧
    view (pci_set_bar64 dev i x s).st =
      view (pci_set_bar dev (i + 1) (x / 2 ^ 32)
        (pci_set_bar dev i (x % 2 ^ 32) s).st).st := by
  have hv : ¬ (i > 4 ∨ i % 2 ≠ 0) := by omega
  obtain ⟨hlo, hhi, hhlt⟩ := split64 x hx
  have hllt : x % 2 ^ 32 < 2 ^ 32 := Nat.mod_lt _ (by norm_num)
  have e1 : PCI_CFG_BAR + i * 4 = 0x10 + 4 * i := by unfold PCI_CFG_BAR; omega
  have e2 : PCI_CFG_BAR + i * 4 + 4 = 0x10 + 4 * (i + 1) := by unfold PCI_CFG_BAR; omega
  have hst : view (pci_set_bar64 dev i x s).st =
      fun b => if b = dev.bdf then
        cfg_store (cfg_store (view s dev.bdf) (0x10 + 4 * i) (x % 2 ^ 32) 4)
          (0x10 + 4 * (i + 1)) (x / 2 ^ 32) 4
        else view s b := by
    unfold pci_set_bar64
    rw [if_neg hv]
    dsimp only
    rw [hmem.2, hmem.2, hlo, hhi, e2, e1]
    funext b
    by_cases hb : b = dev.bdf
    · subst hb
      simp
    · simp [hb]
  refine ⟨?_, ?_, ?_, ?_, ?_, ?_⟩
  · unfold pci_set_bar64
    rw [if_neg hv]
  · unfold pci_set_bar64
    rw [if_neg hv]
    dsimp only
    rw [hlo, hhi, e2, e1]
  · unfold pci_get_bar64
    rw [if_neg hv]
  · unfold pci_get_bar64
    rw [if_neg hv]
    dsimp only
    rw [(hmem.1 _ _ _ _).1, (hmem.1 _ _ _ _).1, (hmem.1 _ _ _ _).2, hst, e2, e1]
    dsimp only
    rw [if_pos rfl, cfg_load_store_same,
      cfg_load_store_disjoint _ _ _ _ _ _ (Or.inl (by omega)), cfg_load_store_same]
    have h1 : u32 (x / 2 ^ 32 % 256 ^ 4) = x / 2 ^ 32 := by
      unfold u32
      norm_num at hhlt ⊢
      omega
    have h2 : u32 (x % 2 ^ 32 % 256 ^ 4) = x % 2 ^ 32 := by
      unfold u32
      norm_num
    rw [h1, h2, shl32_or _ _ hhlt hllt]
    congr 1
    norm_num
    omega
  · intro j hj hne1 hne2
    rw [pci_get_bar_out dev view hmem j _ hj, pci_get_bar_out dev view hmem j s hj, hst]
    dsimp only
    rw [if_pos rfl, cfg_load_store_disjoint _ _ _ _ _ _ (by omega),
      cfg_load_store_disjoint _ _ _ _ _ _ (by omega)]
  · rw [hst, pci_set_bar_view dev view hmem (i + 1) _ _ (by omega) hhlt,
      pci_set_bar_view dev view hmem i _ s (by omega) hllt]
    funext b
    by_cases hb : b = dev.bdf
    · subst hb
      simp
    · simp [hb]

/-- C21 on the memory transport: 0x0123456789abcdef written to the BAR pair 2-3
of device 5 of an all-zero configuration memory and read back. -/
theorem pci_set_bar64_get_bar64_roundtrip_witness :
    (pci_set_bar64 ⟨⟨mem_ops⟩, 5⟩ 2 0x0123456789abcdef (fun _ _ => 0)).ret = OK ∧
    (pci_set_bar64 ⟨⟨mem_ops⟩, 5⟩ 2 0x0123456789abcdef (fun _ _ => 0)).log =
      [Event.cfg_write 5 0x18 0x89abcdef 4, Event.cfg_write 5 0x1c 0x01234567 4] ∧
    (pci_get_bar64 ⟨⟨mem_ops⟩, 5⟩ 2
      (pci_set_bar64 ⟨⟨mem_ops⟩, 5⟩ 2 0x0123456789abcdef (fun _ _ => 0)).st).out =
      some 0x0123456789abcdef := by
  obtain ⟨h1, h2, _, h4, _⟩ := pci_set_bar64_get_bar64_roundtrip ⟨⟨mem_ops⟩, 5⟩ id 2
    0x0123456789abcdef (fun _ _ => 0) ⟨fun _ _ _ _ => ⟨rfl, rfl⟩, fun _ _ _ _ _ => rfl⟩
    (by decide) (by decide)
  exact ⟨h1, h2, h4⟩

end set_bar64_claims

end Pcie
